import Mathlib

/-!
Verification development for the topotik backend core: folder-tree
maintenance, cascading deletion, and the multi-source access resolver.
The definitions below are a shallow embedding of the relevant functions of
`app/crud.py`, `app/routers/folders.py` and `app/routers/sharing.py`,
over a relational store modelled as lists of rows (`DB`).  UUID columns are
modelled as `Nat`; SQL `SELECT ... fetchone() is not None` becomes
`List.any`, SQLAlchemy `.first()` becomes `List.find?`, and `DELETE`
becomes `List.filter`.
-/

namespace Topotik

/-- permission_enum of models.py: the two permission levels. -/
inductive Permission where
  | view
  | edit
deriving DecidableEq, Repr

/-- resource_type_enum restricted to the two values the sharing and access
code paths use (the third enum value `folder` is never written by the code
under study). -/
inductive ResourceType where
  | map
  | collection
deriving DecidableEq, Repr

/-- map_type_enum of models.py. -/
inductive MapType where
  | osm
  | custom_image
deriving DecidableEq, Repr

/-- Row of topotik.users (columns not read by the embedded code paths are
omitted). -/
structure User where
  user_id : Nat
  username : String
  email : String
deriving DecidableEq, Repr

/-- Row of topotik.folders. -/
structure Folder where
  folder_id : Nat
  user_id : Nat
  parent_folder_id : Option Nat
  title : String
deriving DecidableEq, Repr

/-- Row of topotik.maps. -/
structure Map where
  map_id : Nat
  title : String
  map_type : MapType
  is_public : Bool
deriving DecidableEq, Repr

/-- Row of the topotik.folder_maps join table. -/
structure FolderMap where
  folder_id : Nat
  map_id : Nat
deriving DecidableEq, Repr

/-- Row of topotik.map_access. -/
structure MapAccess where
  map_access_id : Nat
  user_id : Nat
  map_id : Nat
  permission : Permission
deriving DecidableEq, Repr

/-- Row of topotik.collections. -/
structure Collection where
  collection_id : Nat
  map_id : Nat
  title : String
  is_public : Bool
  collection_color : Option String
deriving DecidableEq, Repr

/-- Row of topotik.collection_access. -/
structure CollectionAccess where
  collection_access_id : Nat
  user_id : Nat
  collection_id : Nat
  permission : Permission
deriving DecidableEq, Repr

/-- Row of topotik.markers.  The DECIMAL(9,6) coordinates are modelled as
integers in micro-degrees; none of the verified properties depend on the
numeric representation. -/
structure Marker where
  marker_id : Nat
  latitude : Int
  longitude : Int
  title : String
  description : String
deriving DecidableEq, Repr

/-- Row of the topotik.markers_collections join table. -/
structure MarkerCollection where
  marker_id : Nat
  collection_id : Nat
deriving DecidableEq, Repr

/-- Row of topotik.articles. -/
structure Article where
  article_id : Nat
  marker_id : Nat
  markdown_content : String
deriving DecidableEq, Repr

/-- Row of topotik.sharing.  models.py's Sharing class is stale: crud.py and
the sharing router read and write the columns `is_public`, `is_active`,
`is_embed` and `slug` on every Sharing row (create_sharing, update_sharing,
deactivate_sharing, get_active_sharing_by_id, ...), so the row carries them
here exactly as the code uses them (they also appear in spec §3). -/
structure Sharing where
  sharing_id : Nat
  resource_id : Nat
  resource_type : ResourceType
  user_id : Option Nat
  access_level : Permission
  is_public : Bool
  is_active : Bool
  is_embed : Bool
  slug : Option String
deriving DecidableEq, Repr

/-- The relational store: one list of rows per table. -/
structure DB where
  users : List User
  folders : List Folder
  maps : List Map
  folder_maps : List FolderMap
  map_access : List MapAccess
  collections : List Collection
  collection_access : List CollectionAccess
  markers : List Marker
  markers_collections : List MarkerCollection
  articles : List Article
  sharing : List Sharing
deriving DecidableEq, Repr

/-! ## AccessResolver: crud.check_map_ownership, crud.check_resource_access -/

/-- Insertion step for the ORDER BY map_access_id of the third branch of
check_map_ownership. -/
def insertByAccessId (a : MapAccess) : List MapAccess → List MapAccess
  | [] => [a]
  | b :: l =>
    if a.map_access_id ≤ b.map_access_id then a :: b :: l
    else b :: insertByAccessId a l

/-- ORDER BY map_access_id (ascending), as an insertion sort. -/
def sortByAccessId : List MapAccess → List MapAccess
  | [] => []
  | a :: l => insertByAccessId a (sortByAccessId l)

/-- crud.check_map_ownership (crud.py lines 1234-1311).  Branch 1: an
edit-level map_access row for (user, map).  Branch 2: the map is linked via
folder_maps to a folder owned by the user.  Branch 3 (the "creator"
lookup): the same edit-level rows, ordered by map_access_id with LIMIT 1. -/
def check_map_ownership (db : DB) (map_id user_id : Nat) : Bool :=
  if db.map_access.any (fun ma =>
      ma.map_id == map_id && ma.user_id == user_id && ma.permission == Permission.edit) then
    true
  else if db.folder_maps.any (fun fm =>
      fm.map_id == map_id &&
        db.folders.any (fun f => f.folder_id == fm.folder_id && f.user_id == user_id)) then
    true
  else if ((sortByAccessId (db.map_access.filter (fun ma =>
      ma.map_id == map_id && ma.permission == Permission.edit && ma.user_id == user_id))).take 1).isEmpty then
    false
  else
    true

/-- Specification-side ownership predicate, written from the spec's words
(§4.2 ownsMap): an edit-level MapAccess row for (user, map), or a FolderMap
link into a folder owned by the user.  Used only to compare the three-branch
implementation against the two-source union (claim C10). -/
def ownsMapSpec (db : DB) (map_id user_id : Nat) : Bool :=
  db.map_access.any (fun ma =>
      ma.map_id == map_id && ma.user_id == user_id && ma.permission == Permission.edit) ||
  db.folder_maps.any (fun fm =>
      fm.map_id == map_id &&
        db.folders.any (fun f => f.folder_id == fm.folder_id && f.user_id == user_id))

/-- The sharing lookup at the end of crud.check_resource_access: the first
active sharing row bound to this user for the resource. -/
def sharing_lookup (db : DB) (resource_id : Nat) (rt : ResourceType) (user_id : Nat) :
    Option Sharing :=
  db.sharing.find? (fun s =>
    s.resource_id == resource_id && s.resource_type == rt &&
      s.user_id == some user_id && s.is_active)

/-- The final block of crud.check_resource_access, reached when no direct
grant row exists for (user, resource): the first active user-targeted
sharing row decides, with an insufficient access_level failing an edit
request. -/
def sharing_branch (db : DB) (resource_id : Nat) (rt : ResourceType)
    (user_id : Nat) (required : Permission) : Bool :=
  match sharing_lookup db resource_id rt user_id with
  | some s =>
    if required == Permission.edit && !(s.access_level == Permission.edit) then false
    else true
  | none => false

/-- crud.check_resource_access (crud.py lines 2252-2326).  For maps:
check_map_ownership, then the first map_access row for (user, map) — which,
when present but not edit-level, makes an edit request fail without ever
reaching the sharing lookup — then the sharing lookup.  For collections:
the collection must exist, then check_map_ownership on its map, then the
first collection_access row, then the sharing lookup.  Note that the
resource's is_public flag is never consulted. -/
def check_resource_access (db : DB) (resource_id : Nat) (rt : ResourceType)
    (user_id : Nat) (required : Permission) : Bool :=
  match rt with
  | ResourceType.map =>
    if check_map_ownership db resource_id user_id then true
    else
      match db.map_access.find? (fun ma =>
          ma.map_id == resource_id && ma.user_id == user_id) with
      | some ma =>
        if required == Permission.edit && !(ma.permission == Permission.edit) then false
        else true
      | none => sharing_branch db resource_id ResourceType.map user_id required
  | ResourceType.collection =>
    match db.collections.find? (fun c => c.collection_id == resource_id) with
    | none => false
    | some c =>
      if check_map_ownership db c.map_id user_id then true
      else
        match db.collection_access.find? (fun ca =>
            ca.collection_id == resource_id && ca.user_id == user_id) with
        | some ca =>
          if required == Permission.edit && !(ca.permission == Permission.edit) then false
          else true
        | none => sharing_branch db resource_id ResourceType.collection user_id required

/-- Ownership of a map as a proposition: the two grant sources of
check_map_ownership. -/
def OwnsMapP (db : DB) (m u : Nat) : Prop :=
  (∃ ma ∈ db.map_access, ma.map_id = m ∧ ma.user_id = u ∧ ma.permission = Permission.edit) ∨
  (∃ fm ∈ db.folder_maps, fm.map_id = m ∧
    ∃ f ∈ db.folders, f.folder_id = fm.folder_id ∧ f.user_id = u)

theorem insertByAccessId_ne_nil (a : MapAccess) (l : List MapAccess) :
    insertByAccessId a l ≠ [] := by
  cases l with
  | nil => simp [insertByAccessId]
  | cons b t => simp only [insertByAccessId]; split <;> simp

theorem sortByAccessId_eq_nil_iff (l : List MapAccess) :
    sortByAccessId l = [] ↔ l = [] := by
  cases l with
  | nil => simp [sortByAccessId]
  | cons a t =>
    simp only [sortByAccessId]
    constructor
    · intro h; exact absurd h (insertByAccessId_ne_nil a (sortByAccessId t))
    · intro h; exact absurd h (by simp)

theorem take_one_isEmpty_iff (l : List MapAccess) : (l.take 1).isEmpty = true ↔ l = [] := by
  cases l <;> simp [List.isEmpty, List.take]

/-- Shared characterization of check_map_ownership as the two-source union. -/
theorem check_map_ownership_iff_aux (db : DB) (m u : Nat) :
    check_map_ownership db m u = true ↔ OwnsMapP db m u := by
  unfold check_map_ownership OwnsMapP
  by_cases h1 : db.map_access.any (fun ma =>
      ma.map_id == m && ma.user_id == u && ma.permission == Permission.edit) = true
  · simp only [h1, if_true]
    rw [List.any_eq_true] at h1
    obtain ⟨ma, hmem, hp⟩ := h1
    simp only [Bool.and_eq_true, beq_iff_eq] at hp
    exact iff_of_true (by trivial) (Or.inl ⟨ma, hmem, hp.1.1, hp.1.2, hp.2⟩)
  · rw [Bool.not_eq_true] at h1
    simp only [h1, Bool.false_eq_true, if_false]
    by_cases h2 : db.folder_maps.any (fun fm =>
        fm.map_id == m &&
          db.folders.any (fun f => f.folder_id == fm.folder_id && f.user_id == u)) = true
    · simp only [h2, if_true]
      rw [List.any_eq_true] at h2
      obtain ⟨fm, hmem, hp⟩ := h2
      simp only [Bool.and_eq_true, beq_iff_eq, List.any_eq_true] at hp
      obtain ⟨hfm, f, hfmem, hff, hfu⟩ := hp
      exact iff_of_true (by trivial) (Or.inr ⟨fm, hmem, hfm, f, hfmem, hff, hfu⟩)
    · rw [Bool.not_eq_true] at h2
      simp only [h2, Bool.false_eq_true, if_false]
      have hfilter : db.map_access.filter (fun ma =>
          ma.map_id == m && ma.permission == Permission.edit && ma.user_id == u) = [] := by
        rw [List.filter_eq_nil_iff]
        intro ma hmem hp
        simp only [Bool.and_eq_true, beq_iff_eq] at hp
        have : db.map_access.any (fun ma =>
            ma.map_id == m && ma.user_id == u && ma.permission == Permission.edit) = true := by
          rw [List.any_eq_true]
          exact ⟨ma, hmem, by simp [hp.1.1, hp.1.2, hp.2]⟩
        rw [h1] at this
        exact absurd this (by simp)
      rw [hfilter]
      simp only [sortByAccessId, List.take_nil, List.isEmpty_nil, if_true]
      constructor
      · intro h; exact absurd h (by simp)
      · rintro (⟨ma, hmem, hm, hu, hperm⟩ | ⟨fm, hmem, hm, f, hfmem, hff, hfu⟩)
        · exfalso
          have : db.map_access.any (fun ma =>
              ma.map_id == m && ma.user_id == u && ma.permission == Permission.edit) = true := by
            rw [List.any_eq_true]
            exact ⟨ma, hmem, by simp [hm, hu, hperm]⟩
          rw [h1] at this
          exact absurd this (by simp)
        · exfalso
          have : db.folder_maps.any (fun fm =>
              fm.map_id == m &&
                db.folders.any (fun f => f.folder_id == fm.folder_id && f.user_id == u)) = true := by
            rw [List.any_eq_true]
            refine ⟨fm, hmem, ?_⟩
            simp only [Bool.and_eq_true, beq_iff_eq, List.any_eq_true]
            exact ⟨hm, f, hfmem, by simp [hff, hfu]⟩
          rw [h2] at this
          exact absurd this (by simp)

theorem ownsMapSpec_iff_aux (db : DB) (m u : Nat) :
    ownsMapSpec db m u = true ↔ OwnsMapP db m u := by
  unfold ownsMapSpec OwnsMapP
  simp only [Bool.or_eq_true, List.any_eq_true, Bool.and_eq_true, beq_iff_eq]
  constructor
  · rintro (⟨ma, hmem, ⟨hm, hu⟩, hp⟩ | ⟨fm, hmem, hm, f, hfmem, hff, hfu⟩)
    · exact Or.inl ⟨ma, hmem, hm, hu, hp⟩
    · exact Or.inr ⟨fm, hmem, hm, f, hfmem, hff, hfu⟩
  · rintro (⟨ma, hmem, hm, hu, hp⟩ | ⟨fm, hmem, hm, f, hfmem, hff, hfu⟩)
    · exact Or.inl ⟨ma, hmem, ⟨hm, hu⟩, hp⟩
    · exact Or.inr ⟨fm, hmem, hm, f, hfmem, hff, hfu⟩

theorem take_one_ne_nil_iff (l : List MapAccess) : l.take 1 ≠ [] ↔ l ≠ [] := by
  cases l <;> simp [List.take]

/-- C6: crud.check_map_ownership returns true iff an edit-level map_access
row exists for (user, map) or the map is linked via folder_maps to a folder
owned by the user — the two grant sources of the spec's ownsMap. -/
theorem claim_C6_theorem (db : DB) (m u : Nat) :
    check_map_ownership db m u = true ↔
      (∃ ma ∈ db.map_access,
          ma.map_id = m ∧ ma.user_id = u ∧ ma.permission = Permission.edit) ∨
      (∃ fm ∈ db.folder_maps, fm.map_id = m ∧
          ∃ f ∈ db.folders, f.folder_id = fm.folder_id ∧ f.user_id = u) :=
  check_map_ownership_iff_aux db m u

/-- C10: the third branch of check_map_ownership (the ordered, limited
"creator" lookup) is implied by the first branch, and the three-branch
implementation is extensionally equal to the two-source union ownsMapSpec on
every database state. -/
theorem claim_C10_theorem : ∀ (db : DB) (m u : Nat),
    ((sortByAccessId (db.map_access.filter (fun ma =>
        ma.map_id == m && ma.permission == Permission.edit && ma.user_id == u))).take 1 ≠ [] →
      db.map_access.any (fun ma =>
        ma.map_id == m && ma.user_id == u && ma.permission == Permission.edit) = true) ∧
    check_map_ownership db m u = ownsMapSpec db m u := by
  intro db m u
  constructor
  · intro h
    rw [take_one_ne_nil_iff] at h
    rw [Ne, sortByAccessId_eq_nil_iff] at h
    obtain ⟨ma, hmem⟩ := List.exists_mem_of_ne_nil _ h
    rw [List.mem_filter] at hmem
    obtain ⟨hmem, hp⟩ := hmem
    simp only [Bool.and_eq_true, beq_iff_eq] at hp
    rw [List.any_eq_true]
    exact ⟨ma, hmem, by simp [hp.1.1, hp.1.2, hp.2]⟩
  · have h1 := check_map_ownership_iff_aux db m u
    have h2 := ownsMapSpec_iff_aux db m u
    cases hb : ownsMapSpec db m u with
    | true => exact h1.mpr (h2.mp hb)
    | false =>
      cases hc : check_map_ownership db m u with
      | false => rfl
      | true => exact absurd (h2.mpr (h1.mp hc)) (by simp [hb])

/-- Witness for C10 at a concrete store: one edit-level map_access row, so
the third branch's result set is nonempty and the first branch fires. -/
def exdb_c10 : DB :=
  { users := [], folders := [], maps := [],
    folder_maps := [],
    map_access := [{ map_access_id := 1, user_id := 4, map_id := 2, permission := Permission.edit }],
    collections := [], collection_access := [], markers := [],
    markers_collections := [], articles := [], sharing := [] }

theorem claim_C10_witness :
    ((sortByAccessId (exdb_c10.map_access.filter (fun ma =>
        ma.map_id == 2 && ma.permission == Permission.edit && ma.user_id == 4))).take 1 ≠ []) ∧
    exdb_c10.map_access.any (fun ma =>
        ma.map_id == 2 && ma.user_id == 4 && ma.permission == Permission.edit) = true ∧
    check_map_ownership exdb_c10 2 4 = ownsMapSpec exdb_c10 2 4 :=
  ⟨by decide, (claim_C10_theorem exdb_c10 2 4).1 (by decide), (claim_C10_theorem exdb_c10 2 4).2⟩

/-! ## Claim C1: the access union law -/

/-- An adequate map_access grant row in the sense of the code: any row for
(user, map) suffices for view, an edit row is needed for edit. -/
def MapGrantAdequate (db : DB) (r u : Nat) (p : Permission) : Prop :=
  ∃ ma ∈ db.map_access, ma.map_id = r ∧ ma.user_id = u ∧
    (p = Permission.view ∨ ma.permission = Permission.edit)

/-- No map_access row at all for (user, map). -/
def NoMapGrant (db : DB) (r u : Nat) : Prop :=
  ∀ ma ∈ db.map_access, ¬(ma.map_id = r ∧ ma.user_id = u)

/-- An adequate collection_access grant row for (user, collection). -/
def CollGrantAdequate (db : DB) (r u : Nat) (p : Permission) : Prop :=
  ∃ ca ∈ db.collection_access, ca.collection_id = r ∧ ca.user_id = u ∧
    (p = Permission.view ∨ ca.permission = Permission.edit)

/-- No collection_access row at all for (user, collection). -/
def NoCollGrant (db : DB) (r u : Nat) : Prop :=
  ∀ ca ∈ db.collection_access, ¬(ca.collection_id = r ∧ ca.user_id = u)

/-- An adequate active user-targeted sharing row for the resource. -/
def UserSharingAdequate (db : DB) (r : Nat) (rt : ResourceType) (u : Nat) (p : Permission) : Prop :=
  ∃ s ∈ db.sharing, s.resource_id = r ∧ s.resource_type = rt ∧ s.user_id = some u ∧
    s.is_active = true ∧ (p = Permission.view ∨ s.access_level = Permission.edit)

/-- Shared characterization of the sharing fallback of
check_resource_access: with at most one active user-targeted sharing row per
(resource, type, user), the branch succeeds exactly on an adequate row. -/
theorem sharing_branch_iff_aux (db : DB) (r : Nat) (rt : ResourceType) (u : Nat) (p : Permission)
    (hsh : ∀ a ∈ db.sharing, ∀ b ∈ db.sharing, a.resource_id = b.resource_id →
      a.resource_type = b.resource_type → a.user_id = some u → b.user_id = some u →
      a.is_active = true → b.is_active = true → a = b) :
    sharing_branch db r rt u p = true ↔ UserSharingAdequate db r rt u p := by
  unfold sharing_branch sharing_lookup UserSharingAdequate
  cases hf : db.sharing.find? (fun s =>
      s.resource_id == r && s.resource_type == rt && s.user_id == some u && s.is_active) with
  | none =>
    rw [List.find?_eq_none] at hf
    refine iff_of_false (by simp) ?_
    rintro ⟨s, hmem, h1, h2, h3, h4, _⟩
    exact hf s hmem (by simp [h1, h2, h3, h4])
  | some s =>
    have hmem := List.mem_of_find?_eq_some hf
    have hpred := List.find?_some hf
    simp only [Bool.and_eq_true, beq_iff_eq] at hpred
    obtain ⟨⟨⟨h1, h2⟩, h3⟩, h4⟩ := hpred
    cases p with
    | view =>
      refine iff_of_true (by simp) ?_
      exact ⟨s, hmem, h1, h2, h3, h4, Or.inl rfl⟩
    | edit =>
      simp only [show (Permission.edit == Permission.edit) = true from rfl, Bool.true_and]
      cases hal : s.access_level == Permission.edit with
      | true =>
        rw [beq_iff_eq] at hal
        refine iff_of_true (by simp) ?_
        exact ⟨s, hmem, h1, h2, h3, h4, Or.inr hal⟩
      | false =>
        refine iff_of_false (by simp) ?_
        rintro ⟨s', hmem', h1', h2', h3', h4', (h5' | h5')⟩
        · exact absurd h5' (by simp)
        · have heq : s' = s :=
            hsh s' hmem' s hmem (h1'.trans h1.symm) (h2'.trans h2.symm)
              h3' h3 h4' h4
          rw [heq] at h5'
          rw [h5'] at hal
          exact absurd hal (by simp)

/-- Shared characterization of crud.check_resource_access, under primary-key
uniqueness of grant rows, of active user sharing rows, and of collection
ids. -/
theorem check_resource_access_iff_aux (db : DB) (r u : Nat) (p : Permission) (t : ResourceType)
    (hma : ∀ a ∈ db.map_access, ∀ b ∈ db.map_access,
      a.map_id = b.map_id → a.user_id = b.user_id → a = b)
    (hca : ∀ a ∈ db.collection_access, ∀ b ∈ db.collection_access,
      a.collection_id = b.collection_id → a.user_id = b.user_id → a = b)
    (hsh : ∀ a ∈ db.sharing, ∀ b ∈ db.sharing, a.resource_id = b.resource_id →
      a.resource_type = b.resource_type → a.user_id = some u → b.user_id = some u →
      a.is_active = true → b.is_active = true → a = b)
    (hcol : ∀ a ∈ db.collections, ∀ b ∈ db.collections,
      a.collection_id = b.collection_id → a = b) :
    check_resource_access db r t u p = true ↔
      (match t with
       | ResourceType.map =>
         OwnsMapP db r u ∨ MapGrantAdequate db r u p ∨
           (NoMapGrant db r u ∧ UserSharingAdequate db r ResourceType.map u p)
       | ResourceType.collection =>
         ∃ c ∈ db.collections, c.collection_id = r ∧
           (OwnsMapP db c.map_id u ∨ CollGrantAdequate db r u p ∨
             (NoCollGrant db r u ∧ UserSharingAdequate db r ResourceType.collection u p))) := by
  cases t with
  | map =>
    show check_resource_access db r ResourceType.map u p = true ↔ _
    unfold check_resource_access
    by_cases how : check_map_ownership db r u = true
    · simp only [how, if_true]
      exact iff_of_true (by trivial) (Or.inl ((check_map_ownership_iff_aux db r u).mp how))
    · have hnotowns : ¬ OwnsMapP db r u := fun hc =>
        how ((check_map_ownership_iff_aux db r u).mpr hc)
      rw [Bool.not_eq_true] at how
      simp only [how, Bool.false_eq_true, if_false]
      cases hf : db.map_access.find? (fun ma => ma.map_id == r && ma.user_id == u) with
      | some ma =>
        have hmem := List.mem_of_find?_eq_some hf
        have hpred := List.find?_some hf
        simp only [Bool.and_eq_true, beq_iff_eq] at hpred
        have hnog : ¬ (NoMapGrant db r u ∧ UserSharingAdequate db r ResourceType.map u p) :=
          fun h => h.1 ma hmem ⟨hpred.1, hpred.2⟩
        cases p with
        | view =>
          refine iff_of_true (by simp) (Or.inr (Or.inl ?_))
          exact ⟨ma, hmem, hpred.1, hpred.2, Or.inl rfl⟩
        | edit =>
          simp only [show (Permission.edit == Permission.edit) = true from rfl, Bool.true_and]
          cases hperm : ma.permission == Permission.edit with
          | true =>
            rw [beq_iff_eq] at hperm
            refine iff_of_true (by simp) (Or.inr (Or.inl ?_))
            exact ⟨ma, hmem, hpred.1, hpred.2, Or.inr hperm⟩
          | false =>
            refine iff_of_false (by simp) ?_
            rintro (hc | ⟨ma', hmem', h1', h2', (h5' | h5')⟩ | hc)
            · exact hnotowns hc
            · exact absurd h5' (by simp)
            · have heq : ma' = ma :=
                hma ma' hmem' ma hmem (h1'.trans hpred.1.symm) (h2'.trans hpred.2.symm)
              rw [heq] at h5'
              rw [h5'] at hperm
              exact absurd hperm (by simp)
            · exact hnog hc
      | none =>
        have hng : NoMapGrant db r u := by
          rw [List.find?_eq_none] at hf
          rintro ma hmem ⟨h1, h2⟩
          exact hf ma hmem (by simp [h1, h2])
        rw [sharing_branch_iff_aux db r ResourceType.map u p hsh]
        constructor
        · intro h
          exact Or.inr (Or.inr ⟨hng, h⟩)
        · rintro (hc | ⟨ma, hmem, h1, h2, _⟩ | ⟨_, h⟩)
          · exact absurd hc hnotowns
          · exact absurd ⟨h1, h2⟩ (hng ma hmem)
          · exact h
  | collection =>
    show check_resource_access db r ResourceType.collection u p = true ↔ _
    unfold check_resource_access
    cases hc : db.collections.find? (fun c => c.collection_id == r) with
    | none =>
      rw [List.find?_eq_none] at hc
      refine iff_of_false (by simp) ?_
      rintro ⟨c, hmem, hcid, _⟩
      exact hc c hmem (by simp [hcid])
    | some c =>
      have hmem := List.mem_of_find?_eq_some hc
      have hcid : c.collection_id = r := by
        have := List.find?_some hc
        rwa [beq_iff_eq] at this
      have hinner : ∀ P : Collection → Prop,
          ((∃ c' ∈ db.collections, c'.collection_id = r ∧ P c') ↔ P c) := by
        intro P
        constructor
        · rintro ⟨c', hmem', hcid', hP⟩
          have : c' = c := hcol c' hmem' c hmem (hcid'.trans hcid.symm)
          rwa [this] at hP
        · intro hP
          exact ⟨c, hmem, hcid, hP⟩
      rw [hinner]
      by_cases how : check_map_ownership db c.map_id u = true
      · simp only [how, if_true]
        exact iff_of_true (by trivial) (Or.inl ((check_map_ownership_iff_aux db c.map_id u).mp how))
      · have hnotowns : ¬ OwnsMapP db c.map_id u := fun hcont =>
          how ((check_map_ownership_iff_aux db c.map_id u).mpr hcont)
        rw [Bool.not_eq_true] at how
        simp only [how, Bool.false_eq_true, if_false]
        cases hf : db.collection_access.find? (fun ca =>
            ca.collection_id == r && ca.user_id == u) with
        | some ca =>
          have hamem := List.mem_of_find?_eq_some hf
          have hpred := List.find?_some hf
          simp only [Bool.and_eq_true, beq_iff_eq] at hpred
          have hnog : ¬ (NoCollGrant db r u ∧
              UserSharingAdequate db r ResourceType.collection u p) :=
            fun h => h.1 ca hamem ⟨hpred.1, hpred.2⟩
          cases p with
          | view =>
            refine iff_of_true (by simp) (Or.inr (Or.inl ?_))
            exact ⟨ca, hamem, hpred.1, hpred.2, Or.inl rfl⟩
          | edit =>
            simp only [show (Permission.edit == Permission.edit) = true from rfl, Bool.true_and]
            cases hperm : ca.permission == Permission.edit with
            | true =>
              rw [beq_iff_eq] at hperm
              refine iff_of_true (by simp) (Or.inr (Or.inl ?_))
              exact ⟨ca, hamem, hpred.1, hpred.2, Or.inr hperm⟩
            | false =>
              refine iff_of_false (by simp) ?_
              rintro (hcont | ⟨ca', hmem', h1', h2', (h5' | h5')⟩ | hcont)
              · exact hnotowns hcont
              · exact absurd h5' (by simp)
              · have heq : ca' = ca :=
                  hca ca' hmem' ca hamem (h1'.trans hpred.1.symm) (h2'.trans hpred.2.symm)
                rw [heq] at h5'
                rw [h5'] at hperm
                exact absurd hperm (by simp)
              · exact hnog hcont
        | none =>
          have hng : NoCollGrant db r u := by
            rw [List.find?_eq_none] at hf
            rintro ca hamem ⟨h1, h2⟩
            exact hf ca hamem (by simp [h1, h2])
          rw [sharing_branch_iff_aux db r ResourceType.collection u p hsh]
          constructor
          · intro h
            exact Or.inr (Or.inr ⟨hng, h⟩)
          · rintro (hcont | ⟨ca, hamem, h1, h2, _⟩ | ⟨_, h⟩)
            · exact absurd hcont hnotowns
            · exact absurd ⟨h1, h2⟩ (hng ca hamem)
            · exact h

/-- Store refuting C1 as stated: one public map and nothing else.  The
claim's clause (d) says a view request must succeed on a public resource,
but check_resource_access never reads is_public. -/
def exdb_c1 : DB :=
  { users := [], folders := [],
    maps := [{ map_id := 1, title := "m", map_type := MapType.osm, is_public := true }],
    folder_maps := [], map_access := [], collections := [], collection_access := [],
    markers := [], markers_collections := [], articles := [], sharing := [] }

/-- C1 counterexample: map 1 is public, user 7 holds no grant, yet
checkAccess(7, 1, map, view) is false — the claim's is_public clause does
not hold on the code. -/
theorem claim_C1_counterexample :
    (∃ m ∈ exdb_c1.maps, m.map_id = 1 ∧ m.is_public = true) ∧
    check_resource_access exdb_c1 1 ResourceType.map 7 Permission.view = false := by
  constructor
  · exact ⟨{ map_id := 1, title := "m", map_type := MapType.osm, is_public := true },
      by simp [exdb_c1], rfl, rfl⟩
  · rfl

/-- C1 amended: under primary-key uniqueness of grant rows, active
user-targeted sharing rows, and collection ids, checkAccess(u, r, t, p) is
true iff u owns the (parent) map, or the grant row for (u, r) exists and is
adequate for p, or no grant row exists and an active sharing row targeted at
u is adequate for p.  The resource's is_public flag plays no role, an
inadequate grant row vetoes the sharing source, and anonymous (public)
sharing rows never grant. -/
theorem claim_C1_theorem (db : DB) (r u : Nat) (p : Permission) (t : ResourceType)
    (hma : ∀ a ∈ db.map_access, ∀ b ∈ db.map_access,
      a.map_id = b.map_id → a.user_id = b.user_id → a = b)
    (hca : ∀ a ∈ db.collection_access, ∀ b ∈ db.collection_access,
      a.collection_id = b.collection_id → a.user_id = b.user_id → a = b)
    (hsh : ∀ a ∈ db.sharing, ∀ b ∈ db.sharing, a.resource_id = b.resource_id →
      a.resource_type = b.resource_type → a.user_id = some u → b.user_id = some u →
      a.is_active = true → b.is_active = true → a = b)
    (hcol : ∀ a ∈ db.collections, ∀ b ∈ db.collections,
      a.collection_id = b.collection_id → a = b) :
    check_resource_access db r t u p = true ↔
      (match t with
       | ResourceType.map =>
         OwnsMapP db r u ∨ MapGrantAdequate db r u p ∨
           (NoMapGrant db r u ∧ UserSharingAdequate db r ResourceType.map u p)
       | ResourceType.collection =>
         ∃ c ∈ db.collections, c.collection_id = r ∧
           (OwnsMapP db c.map_id u ∨ CollGrantAdequate db r u p ∨
             (NoCollGrant db r u ∧ UserSharingAdequate db r ResourceType.collection u p))) :=
  check_resource_access_iff_aux db r u p t hma hca hsh hcol

/-- Store witnessing the amended C1: user 7 reaches map 1 only through an
active edit-level sharing row. -/
def exdb_c1w : DB :=
  { users := [], folders := [],
    maps := [{ map_id := 1, title := "m", map_type := MapType.osm, is_public := false }],
    folder_maps := [], map_access := [], collections := [], collection_access := [],
    markers := [], markers_collections := [], articles := [],
    sharing := [{ sharing_id := 3, resource_id := 1, resource_type := ResourceType.map,
                  user_id := some 7, access_level := Permission.edit, is_public := false,
                  is_active := true, is_embed := false, slug := none }] }

theorem claim_C1_witness :
    (∀ a ∈ exdb_c1w.map_access, ∀ b ∈ exdb_c1w.map_access,
      a.map_id = b.map_id → a.user_id = b.user_id → a = b) ∧
    (check_resource_access exdb_c1w 1 ResourceType.map 7 Permission.edit = true ↔
      (OwnsMapP exdb_c1w 1 7 ∨ MapGrantAdequate exdb_c1w 1 7 Permission.edit ∨
        (NoMapGrant exdb_c1w 1 7 ∧
          UserSharingAdequate exdb_c1w 1 ResourceType.map 7 Permission.edit))) :=
  ⟨by decide,
   claim_C1_theorem exdb_c1w 1 7 Permission.edit ResourceType.map
     (by decide) (by decide) (by decide) (by decide)⟩

/-! ## FolderTree: crud.move_folder, crud.create_folder -/

/-- SELECT ... FROM topotik.folders WHERE folder_id = :folder_id. -/
def findFolder (db : DB) (fid : Nat) : Option Folder :=
  db.folders.find? (fun f => f.folder_id == fid)

/-- One step up the parent chain: the parent_folder_id of the row for fid,
none when the row is absent or its parent is NULL. -/
def parentStep (db : DB) (fid : Nat) : Option Nat :=
  match findFolder db fid with
  | none => none
  | some f => f.parent_folder_id

/-- The k-th ancestor of x along parent_folder_id, none when the chain ends
(NULL parent or missing row) strictly before k steps. -/
def ancestorAfter (db : DB) (x : Nat) (k : Nat) : Option Nat :=
  match k with
  | 0 => some x
  | Nat.succ k =>
    match parentStep db x with
    | none => none
    | some p => ancestorAfter db p k

/-- The parent chain from x reaches its end within n steps. -/
def chainEnds (db : DB) (n x : Nat) : Bool :=
  (List.range (n + 1)).any (fun j => (ancestorAfter db x j).isNone)

/-- The no-cycle invariant of §3: every folder's parent chain terminates
within the store's folder count. -/
def noCycle (db : DB) : Bool :=
  db.folders.all (fun f => chainEnds db db.folders.length f.folder_id)

/-- The upward walk of crud.move_folder (lines 626-643): starting from the
new parent, follow parent_folder_id and report whether the moved folder is
encountered.  The source loop carries no fuel and would diverge on a cyclic
chain; on an acyclic store a fuel of db.folders.length is exact, since a
terminating chain visits at most that many rows. -/
def walkDetectsCycle (db : DB) (folder_id current fuel : Nat) : Bool :=
  match fuel with
  | 0 => false
  | Nat.succ fuel =>
    match findFolder db current with
    | none => false
    | some f =>
      match f.parent_folder_id with
      | none => false
      | some pid => if pid == folder_id then true else walkDetectsCycle db folder_id pid fuel

/-- UPDATE topotik.folders SET parent_folder_id = ... WHERE folder_id = fid. -/
def setParent (db : DB) (fid : Nat) (p : Option Nat) : DB :=
  { db with folders := db.folders.map (fun f =>
      if f.folder_id == fid then { f with parent_folder_id := p } else f) }

/-- crud.move_folder (crud.py lines 584-657): the moved folder must exist;
a NULL target detaches to the root with no further checks; otherwise the
target must exist, must differ from the moved folder, and the upward walk
from the target must not meet the moved folder; only then is the parent
updated.  Every rejection path returns before any UPDATE. -/
def move_folder (db : DB) (folder_id : Nat) (new_parent_id : Option Nat) : Bool × DB :=
  match findFolder db folder_id with
  | none => (false, db)
  | some _ =>
    match new_parent_id with
    | none => (true, setParent db folder_id none)
    | some p =>
      match findFolder db p with
      | none => (false, db)
      | some _ =>
        if folder_id == p then (false, db)
        else if walkDetectsCycle db folder_id p db.folders.length then (false, db)
        else (true, setParent db folder_id (some p))

/-- Store-level failure modes surfaced by the embedded creation path. -/
inductive StoreError where
  | integrityError
deriving DecidableEq, Repr

/-- crud.create_folder (crud.py lines 498-508) as called by the POST /folders
router (routers/folders.py lines 171-189): no ownership check, no title
check, no typed NotFound — the row is inserted as given, and the only
failure is the store's foreign-key constraint on parent_folder_id
(models.py) when the named parent row is absent.  The generated UUID primary
key is passed in as new_id. -/
def create_folder (db : DB) (title : String) (parent_folder_id : Option Nat)
    (user_id : Nat) (new_id : Nat) : Except StoreError (DB × Folder) :=
  let f : Folder :=
    { folder_id := new_id, user_id := user_id,
      parent_folder_id := parent_folder_id, title := title }
  match parent_folder_id with
  | none => Except.ok ({ db with folders := db.folders ++ [f] }, f)
  | some p =>
    if db.folders.any (fun g => g.folder_id == p) then
      Except.ok ({ db with folders := db.folders ++ [f] }, f)
    else
      Except.error StoreError.integrityError

/-- The claim's notion of descent: the moved folder is found while walking
the parent chain upward from the target (at least one step up). -/
def FoundInChain (db : DB) (f p : Nat) : Prop :=
  ∃ k, 1 ≤ k ∧ ancestorAfter db p k = some f

theorem ancestorAfter_none_mono (db : DB) :
    ∀ (j k x : Nat), j ≤ k → ancestorAfter db x j = none → ancestorAfter db x k = none := by
  intro j
  induction j with
  | zero => intro k x _ h; simp [ancestorAfter] at h
  | succ j ih =>
    intro k x hjk h
    cases k with
    | zero => exact absurd hjk (by omega)
    | succ k =>
      simp only [ancestorAfter] at h ⊢
      cases hp : parentStep db x with
      | none => rfl
      | some p =>
        rw [hp] at h
        exact ih k p (Nat.le_of_succ_le_succ hjk) h

theorem chainEnds_bound (db : DB) (n x k f : Nat) (hce : chainEnds db n x = true)
    (hanc : ancestorAfter db x k = some f) : k ≤ n := by
  unfold chainEnds at hce
  rw [List.any_eq_true] at hce
  obtain ⟨j, hjmem, hj⟩ := hce
  rw [List.mem_range] at hjmem
  rw [Option.isNone_iff_eq_none] at hj
  by_contra hk
  have hjk : j ≤ k := by omega
  have := ancestorAfter_none_mono db j k x hjk hj
  rw [hanc] at this
  exact absurd this (by simp)

theorem walkDetectsCycle_iff (db : DB) (f : Nat) :
    ∀ (n p : Nat), walkDetectsCycle db f p n = true ↔
      ∃ k, 1 ≤ k ∧ k ≤ n ∧ ancestorAfter db p k = some f := by
  intro n
  induction n with
  | zero =>
    intro p
    simp only [walkDetectsCycle]
    constructor
    · intro h; exact absurd h (by simp)
    · rintro ⟨k, hk1, hk0, _⟩; omega
  | succ n ih =>
    intro p
    simp only [walkDetectsCycle]
    cases hff : findFolder db p with
    | none =>
      have hps : parentStep db p = none := by simp [parentStep, hff]
      constructor
      · intro h; exact absurd h (by simp)
      · rintro ⟨k, hk1, _, hanc⟩
        cases k with
        | zero => omega
        | succ k =>
          simp only [ancestorAfter, hps] at hanc
          exact absurd hanc (by simp)
    | some g =>
      have hps : parentStep db p = g.parent_folder_id := by simp [parentStep, hff]
      cases hgp : g.parent_folder_id with
      | none =>
        constructor
        · intro h; simp [hgp] at h
        · rintro ⟨k, hk1, _, hanc⟩
          cases k with
          | zero => omega
          | succ k =>
            simp only [ancestorAfter, hps, hgp] at hanc
            exact absurd hanc (by simp)
      | some pid =>
        by_cases hpf : pid = f
        · simp only [hgp, hpf, beq_self_eq_true, if_true]
          refine iff_of_true (by trivial) ?_
          refine ⟨1, le_refl 1, by omega, ?_⟩
          simp [ancestorAfter, hps, hgp, hpf]
        · have hbne : (pid == f) = false := by simp [hpf]
          simp only [hgp, hbne, Bool.false_eq_true, if_false]
          rw [ih pid]
          constructor
          · rintro ⟨k, hk1, hkn, hanc⟩
            refine ⟨k + 1, by omega, by omega, ?_⟩
            simp [ancestorAfter, hps, hgp, hanc]
          · rintro ⟨k, hk1, hkn, hanc⟩
            cases k with
            | zero => omega
            | succ k =>
              simp only [ancestorAfter, hps, hgp] at hanc
              cases k with
              | zero =>
                simp only [ancestorAfter] at hanc
                exact absurd (Option.some_inj.mp hanc) hpf
              | succ k =>
                exact ⟨k + 1, by omega, by omega, hanc⟩

/-- Any folder id at the start of a nonempty chain has a row. -/
theorem row_of_foundInChain (db : DB) (f p : Nat) (h : FoundInChain db f p) :
    ∃ g, findFolder db p = some g := by
  obtain ⟨k, hk1, hanc⟩ := h
  cases k with
  | zero => omega
  | succ k =>
    simp only [ancestorAfter] at hanc
    cases hps : parentStep db p with
    | none => rw [hps] at hanc; exact absurd hanc (by simp)
    | some q =>
      unfold parentStep at hps
      cases hff : findFolder db p with
      | none => rw [hff] at hps; exact absurd hps (by simp)
      | some g => exact ⟨g, rfl⟩

/-- C3: move_folder rejects a move of f under p whenever p = f or p descends
from f (f is met walking the chain upward from p), and every rejected move
leaves the store — in particular every parent_folder_id — unchanged. -/
theorem claim_C3_theorem (db : DB) (f p : Nat) (hcyc : noCycle db = true) :
    ((p = f ∨ FoundInChain db f p) → move_folder db f (some p) = (false, db)) ∧
    (∀ q : Option Nat, (move_folder db f q).fst = false → (move_folder db f q).snd = db) := by
  constructor
  · intro hreject
    unfold move_folder
    cases hff : findFolder db f with
    | none => rfl
    | some gf =>
      rcases hreject with hpf | hchain
      · subst hpf
        simp [hff]
      · obtain ⟨gp, hgpfind⟩ := row_of_foundInChain db f p hchain
        by_cases hfp : f = p
        · simp [hfp, hgpfind]
        · have hbeq : (f == p) = false := by simp [hfp]
          have hmem : gp ∈ db.folders := List.mem_of_find?_eq_some hgpfind
          have hgid : gp.folder_id = p := by
            have := List.find?_some hgpfind
            rwa [beq_iff_eq] at this
          have hce : chainEnds db db.folders.length p = true := by
            rw [noCycle, List.all_eq_true] at hcyc
            have := hcyc gp hmem
            rwa [hgid] at this
          obtain ⟨k, hk1, hanc⟩ := hchain
          have hkn := chainEnds_bound db db.folders.length p k f hce hanc
          have hwalk : walkDetectsCycle db f p db.folders.length = true :=
            (walkDetectsCycle_iff db f db.folders.length p).mpr ⟨k, hk1, hkn, hanc⟩
          simp [hgpfind, hbeq, hwalk]
  · intro q
    cases hff : findFolder db f with
    | none => intro _; simp [move_folder, hff]
    | some gf =>
      cases q with
      | none => intro h; simp [move_folder, hff] at h
      | some p =>
        cases hfp : findFolder db p with
        | none => intro _; simp [move_folder, hff, hfp]
        | some gp =>
          by_cases heq : (f == p) = true
          · intro _; simp [move_folder, hff, hfp, heq]
          · rw [Bool.not_eq_true] at heq
            by_cases hw : walkDetectsCycle db f p db.folders.length = true
            · intro _; simp [move_folder, hff, hfp, heq, hw]
            · rw [Bool.not_eq_true] at hw
              intro h
              simp [move_folder, hff, hfp, heq, hw] at h

/-- Store witnessing C3: folder 2 is a child of folder 1, so moving 1 under
2 is rejected and the store is untouched. -/
def exdb_c3 : DB :=
  { users := [],
    folders := [{ folder_id := 1, user_id := 4, parent_folder_id := none, title := "a" },
                { folder_id := 2, user_id := 4, parent_folder_id := some 1, title := "b" }],
    maps := [], folder_maps := [], map_access := [], collections := [],
    collection_access := [], markers := [], markers_collections := [], articles := [],
    sharing := [] }

theorem claim_C3_witness :
    noCycle exdb_c3 = true ∧ FoundInChain exdb_c3 1 2 ∧
    move_folder exdb_c3 1 (some 2) = (false, exdb_c3) :=
  ⟨by decide, ⟨1, le_refl 1, by decide⟩,
   (claim_C3_theorem exdb_c3 1 2 (by decide)).1 (Or.inr ⟨1, le_refl 1, by decide⟩)⟩

theorem findFolder_setParent (db : DB) (fid x : Nat) (q : Option Nat) :
    findFolder (setParent db fid q) x =
      (findFolder db x).map (fun g =>
        if g.folder_id == fid then { g with parent_folder_id := q } else g) := by
  unfold findFolder setParent
  rw [List.find?_map]
  have hpred : ((fun g : Folder => g.folder_id == x) ∘ (fun g : Folder =>
      if g.folder_id == fid then { g with parent_folder_id := q } else g)) =
      (fun g : Folder => g.folder_id == x) := by
    funext g
    simp only [Function.comp]
    split <;> rfl
  rw [hpred]

theorem parentStep_setParent (db : DB) (f x : Nat) (q : Option Nat) :
    parentStep (setParent db f q) x =
      (match findFolder db x with
       | none => none
       | some g => if g.folder_id == f then q else g.parent_folder_id) := by
  unfold parentStep
  rw [findFolder_setParent]
  cases findFolder db x with
  | none => rfl
  | some g =>
    by_cases hc : g.folder_id = f <;> simp [hc]

theorem ancestorAfter_setParent_none (db : DB) (f : Nat) :
    ∀ (k x : Nat), ancestorAfter db x k = none →
      ∃ j, j ≤ k ∧ ancestorAfter (setParent db f none) x j = none := by
  intro k
  induction k with
  | zero => intro x h; simp [ancestorAfter] at h
  | succ k ih =>
    intro x h
    simp only [ancestorAfter] at h
    cases hps : parentStep db x with
    | none =>
      refine ⟨1, by omega, ?_⟩
      simp only [ancestorAfter]
      rw [parentStep_setParent]
      unfold parentStep at hps
      cases hff : findFolder db x with
      | none => simp [hff]
      | some g =>
        rw [hff] at hps
        have hgp : g.parent_folder_id = none := hps
        by_cases hc : g.folder_id = f <;> simp [hff, hgp, hc]
    | some p =>
      rw [hps] at h
      unfold parentStep at hps
      cases hff : findFolder db x with
      | none => rw [hff] at hps; exact absurd hps (by simp)
      | some g =>
        rw [hff] at hps
        have hgp : g.parent_folder_id = some p := hps
        by_cases hxf : g.folder_id = f
        · refine ⟨1, by omega, ?_⟩
          simp only [ancestorAfter]
          rw [parentStep_setParent]
          simp [hff, hxf]
        · obtain ⟨j, hj, hnone⟩ := ih p h
          refine ⟨j + 1, by omega, ?_⟩
          simp only [ancestorAfter]
          rw [parentStep_setParent]
          simp [hff, hxf, hgp, hnone]

theorem chainEnds_setParent_none (db : DB) (f n x : Nat) (h : chainEnds db n x = true) :
    chainEnds (setParent db f none) n x = true := by
  unfold chainEnds at h ⊢
  rw [List.any_eq_true] at h ⊢
  obtain ⟨j, hjm, hj⟩ := h
  rw [Option.isNone_iff_eq_none] at hj
  obtain ⟨i, hi, hnone⟩ := ancestorAfter_setParent_none db f j x hj
  refine ⟨i, ?_, by simp [hnone]⟩
  rw [List.mem_range] at hjm ⊢
  omega

theorem noCycle_setParent_none (db : DB) (f : Nat) (h : noCycle db = true) :
    noCycle (setParent db f none) = true := by
  unfold noCycle at h ⊢
  rw [List.all_eq_true] at h ⊢
  intro g1 hg1
  have hlen : (setParent db f none).folders.length = db.folders.length := by
    simp [setParent]
  rw [hlen]
  simp only [setParent, List.mem_map] at hg1
  obtain ⟨g, hg, hupd⟩ := hg1
  have hid : g1.folder_id = g.folder_id := by
    rw [← hupd]
    split <;> rfl
  rw [hid]
  exact chainEnds_setParent_none db f db.folders.length g.folder_id (h g hg)

/-- C9: for an existing folder f, move_folder(f, NULL) always succeeds —
the detach path performs no cycle walk — it sets f's parent_folder_id to
NULL, leaves every other folder row unchanged, and preserves the no-cycle
invariant of the folder forest. -/
theorem claim_C9_theorem (db : DB) (f : Nat)
    (hf : ∃ g ∈ db.folders, g.folder_id = f) (hcyc : noCycle db = true) :
    (move_folder db f none).fst = true ∧
    (∀ g ∈ (move_folder db f none).snd.folders,
      g.folder_id = f → g.parent_folder_id = none) ∧
    (∀ g ∈ db.folders, g.folder_id ≠ f → g ∈ (move_folder db f none).snd.folders) ∧
    noCycle (move_folder db f none).snd = true := by
  obtain ⟨g0, hg0, hid0⟩ := hf
  have hsome : (db.folders.find? (fun g => g.folder_id == f)).isSome := by
    rw [List.find?_isSome]
    exact ⟨g0, hg0, by simp [hid0]⟩
  have hff : ∃ gf, findFolder db f = some gf := by
    unfold findFolder
    cases hres : db.folders.find? (fun g => g.folder_id == f) with
    | none => rw [hres] at hsome; simp at hsome
    | some gf => exact ⟨gf, rfl⟩
  obtain ⟨gf, hgf⟩ := hff
  have hmv : move_folder db f none = (true, setParent db f none) := by
    simp [move_folder, hgf]
  rw [hmv]
  refine ⟨rfl, ?_, ?_, noCycle_setParent_none db f hcyc⟩
  · intro g hg hgid
    simp only [setParent, List.mem_map] at hg
    obtain ⟨g1, hg1, hupd⟩ := hg
    by_cases hc : (g1.folder_id == f) = true
    · rw [← hupd]; simp [hc]
    · rw [Bool.not_eq_true] at hc
      rw [← hupd] at hgid
      simp only [hc, Bool.false_eq_true, if_false] at hgid
      simp [hgid] at hc
  · intro g hg hne
    simp only [setParent, List.mem_map]
    refine ⟨g, hg, ?_⟩
    have hc : (g.folder_id == f) = false := by simp [hne]
    simp [hc]

/-- Store witnessing C9: folder 2 nested under folder 1 is detached to the
root. -/
def exdb_c9 : DB :=
  { users := [],
    folders := [{ folder_id := 1, user_id := 4, parent_folder_id := none, title := "a" },
                { folder_id := 2, user_id := 4, parent_folder_id := some 1, title := "b" }],
    maps := [], folder_maps := [], map_access := [], collections := [],
    collection_access := [], markers := [], markers_collections := [], articles := [],
    sharing := [] }

theorem claim_C9_witness :
    (∃ g ∈ exdb_c9.folders, g.folder_id = 2) ∧ noCycle exdb_c9 = true ∧
    ((move_folder exdb_c9 2 none).fst = true ∧
     (∀ g ∈ (move_folder exdb_c9 2 none).snd.folders,
        g.folder_id = 2 → g.parent_folder_id = none) ∧
     (∀ g ∈ exdb_c9.folders, g.folder_id ≠ 2 →
        g ∈ (move_folder exdb_c9 2 none).snd.folders) ∧
     noCycle (move_folder exdb_c9 2 none).snd = true) :=
  ⟨by decide, by decide, claim_C9_theorem exdb_c9 2 (by decide) (by decide)⟩

/-! ## Claim C4: folder creation preconditions -/

/-- Store refuting C4 as stated: folder 1 belongs to user 2. -/
def exdb_c4 : DB :=
  { users := [],
    folders := [{ folder_id := 1, user_id := 2, parent_folder_id := none, title := "other" }],
    maps := [], folder_maps := [], map_access := [], collections := [],
    collection_access := [], markers := [], markers_collections := [], articles := [],
    sharing := [] }

/-- C4 counterexample: user 7 creates a folder with an empty title under
folder 1, which user 7 does not own — the claim requires a Forbidden
rejection and a non-empty title, but the creation succeeds. -/
theorem claim_C4_counterexample :
    (∀ g ∈ exdb_c4.folders, g.folder_id = 1 → g.user_id ≠ 7) ∧
    create_folder exdb_c4 "" (some 1) 7 99 =
      Except.ok
        ({ exdb_c4 with folders := exdb_c4.folders ++
            [{ folder_id := 99, user_id := 7, parent_folder_id := some 1, title := "" }] },
         { folder_id := 99, user_id := 7, parent_folder_id := some 1, title := "" }) :=
  ⟨by decide, rfl⟩

/-- C4 amended: create_folder validates neither parent ownership nor the
title.  With no parent, or with a parent that exists in the store, the row
is inserted as given for any owner and any title (the empty title included);
only a parent id with no row fails, and then with a store integrity error
rather than a typed NotFound. -/
theorem claim_C4_theorem (db : DB) (title : String) (p user_id new_id : Nat) :
    ((∃ g ∈ db.folders, g.folder_id = p) →
      create_folder db title (some p) user_id new_id =
        Except.ok
          ({ db with folders := db.folders ++
              [{ folder_id := new_id, user_id := user_id,
                 parent_folder_id := some p, title := title }] },
           { folder_id := new_id, user_id := user_id,
             parent_folder_id := some p, title := title })) ∧
    ((∀ g ∈ db.folders, g.folder_id ≠ p) →
      create_folder db title (some p) user_id new_id =
        Except.error StoreError.integrityError) ∧
    (create_folder db title none user_id new_id =
      Except.ok
        ({ db with folders := db.folders ++
            [{ folder_id := new_id, user_id := user_id,
               parent_folder_id := none, title := title }] },
         { folder_id := new_id, user_id := user_id,
           parent_folder_id := none, title := title })) := by
  refine ⟨?_, ?_, rfl⟩
  · rintro ⟨g, hg, hgid⟩
    have hany : db.folders.any (fun g => g.folder_id == p) = true := by
      rw [List.any_eq_true]
      exact ⟨g, hg, by simp [hgid]⟩
    simp [create_folder, hany]
  · intro hno
    have hany : db.folders.any (fun g => g.folder_id == p) = false := by
      rw [Bool.eq_false_iff, Ne, List.any_eq_true]
      rintro ⟨g, hg, hgid⟩
      rw [beq_iff_eq] at hgid
      exact hno g hg hgid
    simp [create_folder, hany]

theorem claim_C4_witness :
    (∃ g ∈ exdb_c4.folders, g.folder_id = 1) ∧
    create_folder exdb_c4 "t" (some 1) 7 99 =
      Except.ok
        ({ exdb_c4 with folders := exdb_c4.folders ++
            [{ folder_id := 99, user_id := 7, parent_folder_id := some 1, title := "t" }] },
         { folder_id := 99, user_id := 7, parent_folder_id := some 1, title := "t" }) :=
  ⟨by decide, (claim_C4_theorem exdb_c4 "t" 1 7 99).1 (by decide)⟩

/-! ## CascadeDeleter: crud.delete_folder -/

/-- One recursive step of the WITH RECURSIVE folder_tree CTE of
crud.delete_folder: the folders whose parent is in the previous level. -/
def childrenOf (db : DB) (ids : List Nat) : List Nat :=
  (db.folders.filter (fun f =>
    match f.parent_folder_id with
    | some q => ids.contains q
    | none => false)).map (fun f => f.folder_id)

/-- Level k of the folder_tree CTE: the folders at depth k below the root
(level 0 is the root row itself). -/
def descLevel (db : DB) (root : Nat) : Nat → List Nat
  | 0 => (db.folders.filter (fun f => f.folder_id == root)).map (fun f => f.folder_id)
  | Nat.succ k => childrenOf db (descLevel db root k)

/-- The CTE result ordered by depth DESC, each folder id tagged with its
depth.  On an acyclic store every level beyond db.folders.length is empty,
so enumerating levels db.folders.length .. 0 is exact. -/
def foldersToDeleteTagged (db : DB) (root : Nat) : List (Nat × Nat) :=
  ((List.range (db.folders.length + 1)).reverse).flatMap
    (fun k => (descLevel db root k).map (fun x => (x, k)))

/-- folders_to_delete of crud.delete_folder: the ids, deepest first. -/
def foldersToDelete (db : DB) (root : Nat) : List Nat :=
  (foldersToDeleteTagged db root).map Prod.fst

/-- maps_to_delete of crud.delete_folder: the maps linked via folder_maps to
any folder of the deletion set, collected before any deletion happens. -/
def mapsToDelete (db : DB) (fs : List Nat) : List Nat :=
  (db.folder_maps.filter (fun fm => fs.contains fm.folder_id)).map (fun fm => fm.map_id)

/-- The SQL statements issued by crud.delete_folder, in source order. -/
inductive Stmt where
  | delFolderMaps (folder_id : Nat)
  | delMapAccess (map_ids : List Nat)
  | delMaps (map_ids : List Nat)
  | delFolder (folder_id : Nat)
deriving DecidableEq, Repr

/-- Modelled from the spec: the store-level reaction of DELETE FROM
topotik.maps.  The DDL that creates the topotik schema is not part of the
repository (models.py is stale — its Sharing class lacks columns the code
uses, and Base.metadata.create_all never runs against the live schema), so
the referential action of the collections — maps and collection_access —
collections foreign keys is taken from spec §3's lifecycle ("all access rows
referencing those maps/collections are removed in one transaction",
Scenario C) and from the ORM cascade `all, delete-orphan` declared on
Map.collections and Collection.access in models.py: deleting a map removes
its collections, their collection_access rows, and their
markers_collections links. -/
def deleteMapsCascade (db : DB) (mids : List Nat) : DB :=
  let dead := (db.collections.filter (fun c => mids.contains c.map_id)).map
    (fun c => c.collection_id)
  { db with
    maps := db.maps.filter (fun m => !(mids.contains m.map_id)),
    collections := db.collections.filter (fun c => !(mids.contains c.map_id)),
    collection_access := db.collection_access.filter (fun ca =>
      !(dead.contains ca.collection_id)),
    markers_collections := db.markers_collections.filter (fun mc =>
      !(dead.contains mc.collection_id)) }

/-- Effect of one statement of the deletion plan on the store. -/
def applyStmt (db : DB) : Stmt → DB
  | Stmt.delFolderMaps fid =>
    { db with folder_maps := db.folder_maps.filter (fun fm => !(fm.folder_id == fid)) }
  | Stmt.delMapAccess mids =>
    { db with map_access := db.map_access.filter (fun ma => !(mids.contains ma.map_id)) }
  | Stmt.delMaps mids => deleteMapsCascade db mids
  | Stmt.delFolder fid =>
    { db with folders := db.folders.filter (fun f => !(f.folder_id == fid)) }

/-- The statement sequence of crud.delete_folder (lines 789-827): one
folder_maps DELETE per folder of the set, then — only when maps were found —
the map_access DELETE and the maps DELETE, then one folders DELETE per
folder of the set, deepest first. -/
def deletionPlan (db : DB) (root : Nat) : List Stmt :=
  let fs := foldersToDelete db root
  let ms := mapsToDelete db fs
  (fs.map Stmt.delFolderMaps) ++
    (if ms.isEmpty then [] else [Stmt.delMapAccess ms, Stmt.delMaps ms]) ++
    (fs.map Stmt.delFolder)

/-- The single transaction wrapping the plan: with no failure every
statement is applied in order and committed; a failure before or at any
statement rolls the whole transaction back, leaving the committed store
untouched. -/
def execPlan (db : DB) (plan : List Stmt) (failAt : Option Nat) : Bool × DB :=
  match failAt with
  | none => (true, plan.foldl applyStmt db)
  | some _ => (false, db)

/-- crud.delete_folder (crud.py lines 737-839): compute the descendant set;
a missing root yields an empty set and False with no writes; otherwise the
whole plan runs in one transaction. -/
def delete_folder (db : DB) (root : Nat) : Bool × DB :=
  if (foldersToDelete db root).isEmpty then (false, db)
  else execPlan db (deletionPlan db root) none

/-- A folder id in the deleted subtree: it has a row and the chain of
parent links reaches the root in some number of steps (zero for the root
itself). -/
def IsSubtreeFolder (db : DB) (root x : Nat) : Prop :=
  (∃ g ∈ db.folders, g.folder_id = x) ∧ ∃ k, ancestorAfter db x k = some root

/-- A map linked by folder_maps into the deleted subtree. -/
def IsSubtreeMap (db : DB) (root m : Nat) : Prop :=
  ∃ fm ∈ db.folder_maps, fm.map_id = m ∧ IsSubtreeFolder db root fm.folder_id

theorem nat_contains_iff (l : List Nat) (x : Nat) : l.contains x = true ↔ x ∈ l := by
  simp

theorem find?_folder_eq (l : List Folder) (hnodup : (l.map Folder.folder_id).Nodup)
    (g : Folder) (hg : g ∈ l) (x : Nat) (hx : g.folder_id = x) :
    l.find? (fun f => f.folder_id == x) = some g := by
  induction l with
  | nil => cases hg
  | cons a t ih =>
    rw [List.map_cons, List.nodup_cons] at hnodup
    obtain ⟨hna, hnt⟩ := hnodup
    rcases List.mem_cons.mp hg with heq | hgt
    · subst heq
      exact List.find?_cons_of_pos _ (by simp [hx])
    · have hax : (a.folder_id == x) = false := by
        rw [Bool.eq_false_iff, Ne, beq_iff_eq]
        intro hax
        apply hna
        rw [hax, ← hx]
        exact List.mem_map_of_mem Folder.folder_id hgt
      rw [List.find?_cons_of_neg _ (by simp [hax])]
      exact ih hnt hgt

theorem findFolder_eq (db : DB) (hnodup : (db.folders.map Folder.folder_id).Nodup)
    (g : Folder) (hg : g ∈ db.folders) : findFolder db g.folder_id = some g :=
  find?_folder_eq db.folders hnodup g hg g.folder_id rfl

theorem mem_descLevel (db : DB) (root : Nat)
    (hnodup : (db.folders.map Folder.folder_id).Nodup)
    (hroot : ∃ g ∈ db.folders, g.folder_id = root) :
    ∀ (k x : Nat), x ∈ descLevel db root k ↔
      ((∃ g ∈ db.folders, g.folder_id = x) ∧ ancestorAfter db x k = some root) := by
  intro k
  induction k with
  | zero =>
    intro x
    simp only [descLevel, List.mem_map, List.mem_filter]
    constructor
    · rintro ⟨g, ⟨hg, hgid⟩, rfl⟩
      rw [beq_iff_eq] at hgid
      exact ⟨⟨g, hg, rfl⟩, by simp [ancestorAfter, hgid]⟩
    · rintro ⟨⟨g, hg, hgid⟩, hanc⟩
      simp only [ancestorAfter, Option.some_inj] at hanc
      subst hanc
      exact ⟨g, ⟨hg, by simp [hgid]⟩, hgid⟩
  | succ k ih =>
    intro x
    simp only [descLevel, childrenOf, List.mem_map, List.mem_filter]
    constructor
    · rintro ⟨g, ⟨hg, hpar⟩, rfl⟩
      cases hgp : g.parent_folder_id with
      | none => rw [hgp] at hpar; exact absurd hpar (by simp)
      | some q =>
        rw [hgp] at hpar
        have hq : q ∈ descLevel db root k := (nat_contains_iff _ _).mp hpar
        obtain ⟨hqrow, hqanc⟩ := (ih q).mp hq
        refine ⟨⟨g, hg, rfl⟩, ?_⟩
        simp only [ancestorAfter]
        have hps : parentStep db g.folder_id = some q := by
          unfold parentStep
          rw [findFolder_eq db hnodup g hg]
          exact hgp
        rw [hps]
        exact hqanc
    · rintro ⟨⟨g, hg, hgid⟩, hanc⟩
      subst hgid
      simp only [ancestorAfter] at hanc
      cases hps : parentStep db g.folder_id with
      | none => rw [hps] at hanc; exact absurd hanc (by simp)
      | some q =>
        rw [hps] at hanc
        have hgp : g.parent_folder_id = some q := by
          unfold parentStep at hps
          rw [findFolder_eq db hnodup g hg] at hps
          exact hps
        have hqrow : ∃ g2 ∈ db.folders, g2.folder_id = q := by
          cases k with
          | zero =>
            simp only [ancestorAfter, Option.some_inj] at hanc
            subst hanc
            exact hroot
          | succ k2 =>
            obtain ⟨g2, hg2find⟩ := row_of_foundInChain db root q ⟨k2 + 1, by omega, hanc⟩
            refine ⟨g2, List.mem_of_find?_eq_some hg2find, ?_⟩
            have := List.find?_some hg2find
            rwa [beq_iff_eq] at this
        have hq : q ∈ descLevel db root k := (ih q).mpr ⟨hqrow, hanc⟩
        refine ⟨g, ⟨hg, ?_⟩, rfl⟩
        rw [hgp]
        exact (nat_contains_iff _ _).mpr hq

theorem mem_foldersToDeleteTagged (db : DB) (root : Nat)
    (hnodup : (db.folders.map Folder.folder_id).Nodup)
    (hroot : ∃ g ∈ db.folders, g.folder_id = root) (x k : Nat) :
    (x, k) ∈ foldersToDeleteTagged db root ↔
      ((∃ g ∈ db.folders, g.folder_id = x) ∧ ancestorAfter db x k = some root ∧
        k ≤ db.folders.length) := by
  unfold foldersToDeleteTagged
  rw [List.mem_flatMap]
  constructor
  · rintro ⟨j, hj, hmem⟩
    rw [List.mem_map] at hmem
    obtain ⟨y, hy, heq⟩ := hmem
    cases heq
    obtain ⟨hrow, hanc⟩ := (mem_descLevel db root hnodup hroot k x).mp hy
    rw [List.mem_reverse, List.mem_range] at hj
    exact ⟨hrow, hanc, by omega⟩
  · rintro ⟨hrow, hanc, hk⟩
    refine ⟨k, ?_, ?_⟩
    · rw [List.mem_reverse, List.mem_range]
      omega
    · rw [List.mem_map]
      exact ⟨x, (mem_descLevel db root hnodup hroot k x).mpr ⟨hrow, hanc⟩, rfl⟩

theorem mem_foldersToDelete (db : DB) (root : Nat)
    (hnodup : (db.folders.map Folder.folder_id).Nodup)
    (hroot : ∃ g ∈ db.folders, g.folder_id = root)
    (hcyc : noCycle db = true) (x : Nat) :
    x ∈ foldersToDelete db root ↔ IsSubtreeFolder db root x := by
  unfold foldersToDelete IsSubtreeFolder
  rw [List.mem_map]
  constructor
  · rintro ⟨⟨y, k⟩, hpair, rfl⟩
    obtain ⟨hrow, hanc, _⟩ := (mem_foldersToDeleteTagged db root hnodup hroot y k).mp hpair
    exact ⟨hrow, k, hanc⟩
  · rintro ⟨hrow, k, hanc⟩
    obtain ⟨g, hg, hgid⟩ := hrow
    have hce : chainEnds db db.folders.length x = true := by
      unfold noCycle at hcyc
      rw [List.all_eq_true] at hcyc
      have := hcyc g hg
      rwa [hgid] at this
    have hk := chainEnds_bound db db.folders.length x k root hce hanc
    exact ⟨(x, k),
      (mem_foldersToDeleteTagged db root hnodup hroot x k).mpr ⟨⟨g, hg, hgid⟩, hanc, hk⟩, rfl⟩

theorem root_mem_foldersToDelete (db : DB) (root : Nat)
    (hnodup : (db.folders.map Folder.folder_id).Nodup)
    (hroot : ∃ g ∈ db.folders, g.folder_id = root) :
    root ∈ foldersToDelete db root := by
  unfold foldersToDelete
  rw [List.mem_map]
  refine ⟨(root, 0), ?_, rfl⟩
  exact (mem_foldersToDeleteTagged db root hnodup hroot root 0).mpr
    ⟨hroot, rfl, Nat.zero_le _⟩

/-- The combined effect of the four phases of the deletion plan, written as
one filter per table; used to characterize the committed state. -/
def cascadeResult (db : DB) (root : Nat) : DB :=
  let fs := foldersToDelete db root
  let ms := mapsToDelete db fs
  let dead := (db.collections.filter (fun c => ms.contains c.map_id)).map
    (fun c => c.collection_id)
  { db with
    folders := db.folders.filter (fun f => !(fs.contains f.folder_id)),
    folder_maps := db.folder_maps.filter (fun fm => !(fs.contains fm.folder_id)),
    map_access := db.map_access.filter (fun ma => !(ms.contains ma.map_id)),
    maps := db.maps.filter (fun m => !(ms.contains m.map_id)),
    collections := db.collections.filter (fun c => !(ms.contains c.map_id)),
    collection_access := db.collection_access.filter (fun ca =>
      !(dead.contains ca.collection_id)),
    markers_collections := db.markers_collections.filter (fun mc =>
      !(dead.contains mc.collection_id)) }

theorem filter_filter_contains {α : Type} (key : α → Nat) (a : Nat) (t : List Nat) :
    ∀ (l : List α),
      (l.filter (fun x => !(key x == a))).filter (fun x => !(t.contains (key x))) =
        l.filter (fun x => !((a :: t).contains (key x))) := by
  intro l
  rw [List.filter_filter]
  apply List.filter_congr
  intro x _
  by_cases h1 : key x = a <;> by_cases h2 : key x ∈ t <;>
    simp [List.contains_cons, h1, h2]

theorem foldl_delFolderMaps : ∀ (fs : List Nat) (db : DB),
    (fs.map Stmt.delFolderMaps).foldl applyStmt db =
      { db with folder_maps := db.folder_maps.filter (fun fm =>
          !(fs.contains fm.folder_id)) } := by
  intro fs
  induction fs with
  | nil =>
    intro db
    simp [List.filter_true]
  | cons a t ih =>
    intro db
    simp only [List.map_cons, List.foldl_cons]
    rw [ih]
    simp only [applyStmt]
    rw [filter_filter_contains FolderMap.folder_id a t]

theorem foldl_delFolder : ∀ (fs : List Nat) (db : DB),
    (fs.map Stmt.delFolder).foldl applyStmt db =
      { db with folders := db.folders.filter (fun f =>
          !(fs.contains f.folder_id)) } := by
  intro fs
  induction fs with
  | nil =>
    intro db
    simp [List.filter_true]
  | cons a t ih =>
    intro db
    simp only [List.map_cons, List.foldl_cons]
    rw [ih]
    simp only [applyStmt]
    rw [filter_filter_contains Folder.folder_id a t]

theorem foldl_mid (db1 : DB) (ms : List Nat) :
    ((if ms.isEmpty then ([] : List Stmt)
      else [Stmt.delMapAccess ms, Stmt.delMaps ms]).foldl applyStmt db1) =
      deleteMapsCascade
        { db1 with map_access := db1.map_access.filter (fun ma =>
            !(ms.contains ma.map_id)) } ms := by
  cases ms with
  | nil =>
    simp [deleteMapsCascade, List.filter_true]
  | cons m mt =>
    simp [List.foldl, applyStmt]

theorem delete_folder_state (db : DB) (root : Nat) :
    (deletionPlan db root).foldl applyStmt db = cascadeResult db root := by
  unfold deletionPlan cascadeResult
  rw [List.foldl_append, List.foldl_append]
  rw [foldl_delFolderMaps, foldl_mid, foldl_delFolder]
  rfl

theorem mem_mapsToDelete (db : DB) (fs : List Nat) (y : Nat) :
    y ∈ mapsToDelete db fs ↔
      ∃ fm ∈ db.folder_maps, fm.map_id = y ∧ fm.folder_id ∈ fs := by
  unfold mapsToDelete
  rw [List.mem_map]
  constructor
  · rintro ⟨fm, hmem, rfl⟩
    rw [List.mem_filter] at hmem
    exact ⟨fm, hmem.1, rfl, (nat_contains_iff _ _).mp hmem.2⟩
  · rintro ⟨fm, hmem, hmy, hfs⟩
    exact ⟨fm, List.mem_filter.mpr ⟨hmem, (nat_contains_iff _ _).mpr hfs⟩, hmy⟩

theorem foldersToDelete_ne (db : DB) (root : Nat)
    (hnodup : (db.folders.map Folder.folder_id).Nodup)
    (hroot : ∃ g ∈ db.folders, g.folder_id = root) :
    (foldersToDelete db root).isEmpty = false := by
  rw [Bool.eq_false_iff, Ne, List.isEmpty_iff]
  intro hnil
  have hmem := root_mem_foldersToDelete db root hnodup hroot
  rw [hnil] at hmem
  exact absurd hmem (List.not_mem_nil root)

theorem delete_folder_eq (db : DB) (root : Nat)
    (hnodup : (db.folders.map Folder.folder_id).Nodup)
    (hroot : ∃ g ∈ db.folders, g.folder_id = root) :
    delete_folder db root = (true, cascadeResult db root) := by
  unfold delete_folder execPlan
  rw [foldersToDelete_ne db root hnodup hroot]
  simp only [Bool.false_eq_true, if_false]
  rw [delete_folder_state]

/-- C2: after delete_folder on an existing root (with unique folder ids, an
acyclic parent forest, and each map linked into at most one folder, per
§3's "at most one folder under normal application flow"), no Folder, Map,
FolderMap, MapAccess or CollectionAccess row referencing the root, a
descendant folder, a map linked into the subtree, or a collection of such a
map remains in the store. -/
theorem claim_C2_theorem (db : DB) (root : Nat)
    (hroot : ∃ g ∈ db.folders, g.folder_id = root)
    (hnodup : (db.folders.map Folder.folder_id).Nodup)
    (hcyc : noCycle db = true)
    (honefold : ∀ a ∈ db.folder_maps, ∀ b ∈ db.folder_maps,
      a.map_id = b.map_id → a.folder_id = b.folder_id) :
    (delete_folder db root).fst = true ∧
    (∀ f ∈ (delete_folder db root).snd.folders, ¬ IsSubtreeFolder db root f.folder_id) ∧
    (∀ m ∈ (delete_folder db root).snd.maps, ¬ IsSubtreeMap db root m.map_id) ∧
    (∀ fm ∈ (delete_folder db root).snd.folder_maps,
      ¬ IsSubtreeFolder db root fm.folder_id ∧ ¬ IsSubtreeMap db root fm.map_id) ∧
    (∀ ma ∈ (delete_folder db root).snd.map_access, ¬ IsSubtreeMap db root ma.map_id) ∧
    (∀ ca ∈ (delete_folder db root).snd.collection_access,
      ¬ ∃ c ∈ db.collections, c.collection_id = ca.collection_id ∧
          IsSubtreeMap db root c.map_id) := by
  have hfs_iff := mem_foldersToDelete db root hnodup hroot hcyc
  have hms_iff : ∀ y, y ∈ mapsToDelete db (foldersToDelete db root) ↔
      IsSubtreeMap db root y := by
    intro y
    rw [mem_mapsToDelete]
    unfold IsSubtreeMap
    constructor
    · rintro ⟨fm, hmem, hmy, hfs⟩
      exact ⟨fm, hmem, hmy, (hfs_iff _).mp hfs⟩
    · rintro ⟨fm, hmem, hmy, hsub⟩
      exact ⟨fm, hmem, hmy, (hfs_iff _).mpr hsub⟩
  rw [delete_folder_eq db root hnodup hroot]
  refine ⟨rfl, ?_, ?_, ?_, ?_, ?_⟩
  · intro f hf
    simp only [cascadeResult, List.mem_filter] at hf
    intro hsub
    have hc := (nat_contains_iff _ _).mpr ((hfs_iff _).mpr hsub)
    rw [hc] at hf
    exact absurd hf.2 (by simp)
  · intro m hm
    simp only [cascadeResult, List.mem_filter] at hm
    intro hsub
    have hc := (nat_contains_iff _ _).mpr ((hms_iff _).mpr hsub)
    rw [hc] at hm
    exact absurd hm.2 (by simp)
  · intro fm hfm
    simp only [cascadeResult, List.mem_filter] at hfm
    constructor
    · intro hsub
      have hc := (nat_contains_iff _ _).mpr ((hfs_iff _).mpr hsub)
      rw [hc] at hfm
      exact absurd hfm.2 (by simp)
    · rintro ⟨fm2, hmem2, hmy2, hsub2⟩
      have heq : fm.folder_id = fm2.folder_id :=
        honefold fm hfm.1 fm2 hmem2 hmy2.symm
      have hc := (nat_contains_iff _ _).mpr ((hfs_iff _).mpr hsub2)
      rw [← heq] at hc
      rw [hc] at hfm
      exact absurd hfm.2 (by simp)
  · intro ma hma
    simp only [cascadeResult, List.mem_filter] at hma
    intro hsub
    have hc := (nat_contains_iff _ _).mpr ((hms_iff _).mpr hsub)
    rw [hc] at hma
    exact absurd hma.2 (by simp)
  · intro ca hca
    simp only [cascadeResult, List.mem_filter] at hca
    rintro ⟨c, hc, hcid, hsub⟩
    have hcm := (nat_contains_iff _ _).mpr ((hms_iff _).mpr hsub)
    have hdead : ca.collection_id ∈
        ((db.collections.filter (fun c =>
          (mapsToDelete db (foldersToDelete db root)).contains c.map_id)).map
            (fun c => c.collection_id)) := by
      rw [List.mem_map]
      exact ⟨c, List.mem_filter.mpr ⟨hc, hcm⟩, hcid⟩
    have hcon := (nat_contains_iff _ _).mpr hdead
    rw [hcon] at hca
    exact absurd hca.2 (by simp)

/-- Store witnessing C2 and C5, Scenario C of the spec: Trips (1) contains
Day1 (2) containing map M2 (10) with collection C1 (20) and grant rows on
both the map and the collection. -/
def exdb_c2 : DB :=
  { users := [],
    folders := [{ folder_id := 1, user_id := 4, parent_folder_id := none, title := "Trips" },
                { folder_id := 2, user_id := 4, parent_folder_id := some 1, title := "Day1" }],
    maps := [{ map_id := 10, title := "M2", map_type := MapType.osm, is_public := false }],
    folder_maps := [{ folder_id := 2, map_id := 10 }],
    map_access := [{ map_access_id := 1, user_id := 4, map_id := 10,
                     permission := Permission.edit }],
    collections := [{ collection_id := 20, map_id := 10, title := "C1",
                      is_public := false, collection_color := none }],
    collection_access := [{ collection_access_id := 1, user_id := 5, collection_id := 20,
                            permission := Permission.view }],
    markers := [], markers_collections := [], articles := [], sharing := [] }

theorem claim_C2_witness :
    ((∃ g ∈ exdb_c2.folders, g.folder_id = 1) ∧
     (exdb_c2.folders.map Folder.folder_id).Nodup ∧
     noCycle exdb_c2 = true ∧
     (∀ a ∈ exdb_c2.folder_maps, ∀ b ∈ exdb_c2.folder_maps,
        a.map_id = b.map_id → a.folder_id = b.folder_id)) ∧
    ((delete_folder exdb_c2 1).fst = true ∧
     (∀ f ∈ (delete_folder exdb_c2 1).snd.folders, ¬ IsSubtreeFolder exdb_c2 1 f.folder_id) ∧
     (∀ m ∈ (delete_folder exdb_c2 1).snd.maps, ¬ IsSubtreeMap exdb_c2 1 m.map_id) ∧
     (∀ fm ∈ (delete_folder exdb_c2 1).snd.folder_maps,
        ¬ IsSubtreeFolder exdb_c2 1 fm.folder_id ∧ ¬ IsSubtreeMap exdb_c2 1 fm.map_id) ∧
     (∀ ma ∈ (delete_folder exdb_c2 1).snd.map_access, ¬ IsSubtreeMap exdb_c2 1 ma.map_id) ∧
     (∀ ca ∈ (delete_folder exdb_c2 1).snd.collection_access,
        ¬ ∃ c ∈ exdb_c2.collections, c.collection_id = ca.collection_id ∧
            IsSubtreeMap exdb_c2 1 c.map_id)) :=
  ⟨⟨by decide, by decide, by decide, by decide⟩,
   claim_C2_theorem exdb_c2 1 (by decide) (by decide) (by decide) (by decide)⟩

theorem pairwise_const {α : Type} (P : Prop) (hP : P) :
    ∀ (l : List α), List.Pairwise (fun _ _ => P) l
  | [] => List.Pairwise.nil
  | _ :: t => List.Pairwise.cons (fun _ _ => hP) (pairwise_const P hP t)

theorem pairwise_depths (g : Nat → List Nat) :
    ∀ (l : List Nat), List.Pairwise (fun a b => b ≤ a) l →
      List.Pairwise (fun x y : Nat × Nat => y.2 ≤ x.2)
        (l.flatMap (fun k => (g k).map (fun x => (x, k)))) := by
  intro l
  induction l with
  | nil => intro _; simp
  | cons a t ih =>
    intro hl
    rw [List.pairwise_cons] at hl
    obtain ⟨ha, ht⟩ := hl
    rw [List.flatMap_cons, List.pairwise_append]
    refine ⟨?_, ih ht, ?_⟩
    · rw [List.pairwise_map]
      exact pairwise_const _ (le_refl a) (g a)
    · intro x hx y hy
      rw [List.mem_map] at hx
      obtain ⟨x0, _, hx0⟩ := hx
      rw [List.mem_flatMap] at hy
      obtain ⟨k, hkt, hy⟩ := hy
      rw [List.mem_map] at hy
      obtain ⟨y0, _, hy0⟩ := hy
      rw [← hx0, ← hy0]
      exact ha k hkt

theorem pairwise_reverse_range (n : Nat) :
    List.Pairwise (fun a b => b ≤ a) (List.range n).reverse := by
  rw [List.pairwise_reverse]
  exact (List.pairwise_lt_range n).imp (fun h => Nat.le_of_lt h)

/-- C5: delete_folder computes the root's descendant closure tagged with
depth (exactly the folders whose parent chain reaches the root, every depth
bounded by the folder count), orders it deepest first, and the committed
state is the plan — folder_maps deletes per folder, then map_access and
maps deletes for the collected maps, then folder deletes — folded over the
store in that order; a failure at any statement yields the untouched
original store. -/
theorem claim_C5_theorem (db : DB) (root : Nat)
    (hroot : ∃ g ∈ db.folders, g.folder_id = root)
    (hnodup : (db.folders.map Folder.folder_id).Nodup) :
    (∀ x k, (x, k) ∈ foldersToDeleteTagged db root ↔
      ((∃ g ∈ db.folders, g.folder_id = x) ∧ ancestorAfter db x k = some root ∧
        k ≤ db.folders.length)) ∧
    List.Pairwise (fun x y : Nat × Nat => y.2 ≤ x.2) (foldersToDeleteTagged db root) ∧
    delete_folder db root = (true, (deletionPlan db root).foldl applyStmt db) ∧
    (deletionPlan db root).foldl applyStmt db = cascadeResult db root ∧
    (∀ i : Nat, execPlan db (deletionPlan db root) (some i) = (false, db)) := by
  refine ⟨mem_foldersToDeleteTagged db root hnodup hroot, ?_, ?_,
    delete_folder_state db root, fun i => rfl⟩
  · unfold foldersToDeleteTagged
    exact pairwise_depths _ _ (pairwise_reverse_range _)
  · rw [delete_folder_eq db root hnodup hroot, delete_folder_state]

theorem claim_C5_witness :
    ((∃ g ∈ exdb_c2.folders, g.folder_id = 1) ∧
     (exdb_c2.folders.map Folder.folder_id).Nodup) ∧
    ((∀ x k, (x, k) ∈ foldersToDeleteTagged exdb_c2 1 ↔
        ((∃ g ∈ exdb_c2.folders, g.folder_id = x) ∧
          ancestorAfter exdb_c2 x k = some 1 ∧ k ≤ exdb_c2.folders.length)) ∧
     List.Pairwise (fun x y : Nat × Nat => y.2 ≤ x.2) (foldersToDeleteTagged exdb_c2 1) ∧
     delete_folder exdb_c2 1 = (true, (deletionPlan exdb_c2 1).foldl applyStmt exdb_c2) ∧
     (deletionPlan exdb_c2 1).foldl applyStmt exdb_c2 = cascadeResult exdb_c2 1 ∧
     (∀ i : Nat, execPlan exdb_c2 (deletionPlan exdb_c2 1) (some i) = (false, exdb_c2))) :=
  ⟨⟨by decide, by decide⟩, claim_C5_theorem exdb_c2 1 (by decide) (by decide)⟩

/-! ## SharingRegistry: crud.create_sharing, update_sharing,
deactivate_sharing, delete_sharing -/

/-- schemas.SharingUpdate: every field optional; an absent field leaves the
row untouched. -/
structure SharingUpdate where
  access_level : Option Permission
  is_active : Option Bool
  is_public : Option Bool
  slug : Option String
deriving DecidableEq, Repr

/-- The field-by-field assignment block of crud.update_sharing (lines
2191-2202). -/
def applySharingUpdate (u : SharingUpdate) (s : Sharing) : Sharing :=
  let s1 := match u.access_level with
    | none => s
    | some a => { s with access_level := a }
  let s2 := match u.is_active with
    | none => s1
    | some b => { s1 with is_active := b }
  let s3 := match u.is_public with
    | none => s2
    | some b => { s2 with is_public := b }
  match u.slug with
  | none => s3
  | some str => { s3 with slug := some str }

/-- Mutating the ORM row fetched by primary key: the first row with the id
is replaced, the rest of the table is untouched. -/
def updateFirst : List Sharing → Nat → (Sharing → Sharing) → List Sharing
  | [], _, _ => []
  | s :: rest, sid, f =>
    if s.sharing_id == sid then f s :: rest else s :: updateFirst rest sid f

/-- crud.get_sharing_by_id. -/
def get_sharing_by_id (db : DB) (sid : Nat) : Option Sharing :=
  db.sharing.find? (fun s => s.sharing_id == sid)

/-- crud.update_sharing (crud.py lines 2182-2212): a missing row yields
None; otherwise every supplied field — is_active included, in either
direction — is written onto the row. -/
def update_sharing (db : DB) (sid : Nat) (u : SharingUpdate) : Option (DB × Sharing) :=
  match get_sharing_by_id db sid with
  | none => none
  | some s =>
    some ({ db with sharing := updateFirst db.sharing sid (fun t => applySharingUpdate u t) },
          applySharingUpdate u s)

/-- crud.deactivate_sharing (crud.py lines 2233-2250): sets is_active to
False on the fetched row. -/
def deactivate_sharing (db : DB) (sid : Nat) : Bool × DB :=
  match get_sharing_by_id db sid with
  | none => (false, db)
  | some _ =>
    (true, { db with sharing := updateFirst db.sharing sid (fun t => { t with is_active := false }) })

/-- crud.delete_sharing (crud.py lines 2214-2231): hard delete of the
fetched row. -/
def delete_sharing (db : DB) (sid : Nat) : Bool × DB :=
  match get_sharing_by_id db sid with
  | none => (false, db)
  | some _ =>
    (true, { db with sharing := db.sharing.eraseP (fun s => s.sharing_id == sid) })

/-- schemas.SharingCreate. -/
structure SharingCreate where
  resource_id : Nat
  resource_type : ResourceType
  user_id : Option Nat
  user_email : Option String
  access_level : Permission
  is_public : Bool
  is_active : Bool
  is_embed : Bool
  slug : Option String
  generate_slug : Bool
deriving DecidableEq, Repr

/-- The row assembled by crud.create_sharing: final_user_id is cleared for
public or embed grants, and final_slug falls back to the generated slug when
generate_slug is set and no slug was supplied. -/
def mkSharingRow (inp : SharingCreate) (new_id : Nat) (fresh_slug : Option String)
    (target_user : Option Nat) : Sharing :=
  { sharing_id := new_id, resource_id := inp.resource_id,
    resource_type := inp.resource_type,
    user_id := if inp.is_public || inp.is_embed then none else target_user,
    access_level := inp.access_level, is_public := inp.is_public,
    is_active := inp.is_active, is_embed := inp.is_embed,
    slug := if inp.generate_slug && inp.slug == none then fresh_slug else inp.slug }

/-- crud.create_sharing (crud.py lines 2099-2180): an email that resolves to
no user raises (None here); a public or embed grant clears the recipient
binding; the resource must exist for its type; a fresh row is appended and
no existing row is touched.  The uuid4-based slug generation with its
uniqueness retry loop is randomized and is modelled by the caller-supplied
fresh_slug, used when generate_slug is set and no slug was given. -/
def create_sharing (db : DB) (inp : SharingCreate) (new_id : Nat)
    (fresh_slug : Option String) : Option (DB × Sharing) :=
  match (match inp.user_email with
         | some e =>
           match db.users.find? (fun usr => usr.email == e) with
           | none => none
           | some usr => some (some usr.user_id)
         | none => some inp.user_id) with
  | none => none
  | some target_user =>
    match inp.resource_type with
    | ResourceType.map =>
      if db.maps.any (fun m => m.map_id == inp.resource_id) then
        some ({ db with sharing :=
                  db.sharing ++ [mkSharingRow inp new_id fresh_slug target_user] },
              mkSharingRow inp new_id fresh_slug target_user)
      else none
    | ResourceType.collection =>
      if db.collections.any (fun c => c.collection_id == inp.resource_id) then
        some ({ db with sharing :=
                  db.sharing ++ [mkSharingRow inp new_id fresh_slug target_user] },
              mkSharingRow inp new_id fresh_slug target_user)
      else none

theorem applySharingUpdate_id (u : SharingUpdate) (s : Sharing) :
    (applySharingUpdate u s).sharing_id = s.sharing_id := by
  obtain ⟨ual, uact, upub, uslug⟩ := u
  unfold applySharingUpdate
  cases ual <;> cases uact <;> cases upub <;> cases uslug <;> rfl

theorem applySharingUpdate_active (u : SharingUpdate) (s : Sharing)
    (hu : u.is_active ≠ some true) :
    (applySharingUpdate u s).is_active = true → s.is_active = true := by
  obtain ⟨ual, uact, upub, uslug⟩ := u
  unfold applySharingUpdate
  cases uact with
  | none => cases ual <;> cases upub <;> cases uslug <;> exact fun h => h
  | some b =>
    cases b with
    | true => exact absurd rfl hu
    | false =>
      cases ual <;> cases upub <;> cases uslug <;> exact fun h => absurd h (by simp)

theorem mem_updateFirst (sid : Nat) (f : Sharing → Sharing) :
    ∀ (l : List Sharing) (s : Sharing),
      s ∈ updateFirst l sid f → s ∈ l ∨ ∃ t ∈ l, s = f t := by
  intro l
  induction l with
  | nil => intro s h; cases h
  | cons a t ih =>
    intro s h
    unfold updateFirst at h
    by_cases hc : (a.sharing_id == sid) = true
    · rw [if_pos hc] at h
      rcases List.mem_cons.mp h with heq | hmem
      · exact Or.inr ⟨a, List.mem_cons_self a t, heq⟩
      · exact Or.inl (List.mem_cons_of_mem a hmem)
    · rw [if_neg hc] at h
      rcases List.mem_cons.mp h with heq | hmem
      · exact Or.inl (heq ▸ List.mem_cons_self a t)
      · rcases ih s hmem with h1 | ⟨t0, ht0, heq⟩
        · exact Or.inl (List.mem_cons_of_mem a h1)
        · exact Or.inr ⟨t0, List.mem_cons_of_mem a ht0, heq⟩

/-- Store refuting C7 as stated: sharing row 5 is revoked. -/
def exdb_c7 : DB :=
  { users := [], folders := [],
    maps := [{ map_id := 1, title := "m", map_type := MapType.osm, is_public := false }],
    folder_maps := [], map_access := [], collections := [], collection_access := [],
    markers := [], markers_collections := [], articles := [],
    sharing := [{ sharing_id := 5, resource_id := 1, resource_type := ResourceType.map,
                  user_id := some 2, access_level := Permission.view, is_public := false,
                  is_active := false, is_embed := false, slug := none }] }

/-- C7 counterexample: update_sharing with is_active = true flips the
revoked row 5 back to active, so a transition from revoked to active is
reachable — the PUT /sharing route passes SharingUpdate.is_active straight
through. -/
theorem claim_C7_counterexample :
    ((get_sharing_by_id exdb_c7 5).map Sharing.is_active = some false) ∧
    ((update_sharing exdb_c7 5
        { access_level := none, is_active := some true, is_public := none, slug := none }).map
      (fun r => (get_sharing_by_id r.fst 5).map Sharing.is_active)) = some (some true) := by
  constructor
  · rfl
  · rfl

/-- C7 amended: deactivate_sharing and delete_sharing never produce an
active row that was not already active, create_sharing only appends a fresh
row, and update_sharing preserves inactivity unless it is called with
is_active = true — that one operation can transition a revoked row back to
active. -/
theorem claim_C7_theorem (db : DB) (sid : Nat) (u : SharingUpdate)
    (inp : SharingCreate) (new_id : Nat) (fresh_slug : Option String) :
    (∀ s ∈ (deactivate_sharing db sid).snd.sharing, s.is_active = true → s ∈ db.sharing) ∧
    (∀ s ∈ (delete_sharing db sid).snd.sharing, s ∈ db.sharing) ∧
    (∀ r, create_sharing db inp new_id fresh_slug = some r →
      ∀ s ∈ r.fst.sharing, s ∈ db.sharing ∨ s = r.snd) ∧
    (u.is_active ≠ some true →
      ∀ r, update_sharing db sid u = some r →
        ∀ s ∈ r.fst.sharing, s.is_active = true →
          ∃ t ∈ db.sharing, t.sharing_id = s.sharing_id ∧ t.is_active = true) := by
  refine ⟨?_, ?_, ?_, ?_⟩
  · intro s hs hact
    cases hg : get_sharing_by_id db sid with
    | none =>
      simp only [deactivate_sharing, hg] at hs
      exact hs
    | some g =>
      simp only [deactivate_sharing, hg] at hs
      rcases mem_updateFirst sid _ db.sharing s hs with hmem | ⟨t, ht, heq⟩
      · exact hmem
      · rw [heq] at hact
        exact absurd hact (by simp)
  · intro s hs
    cases hg : get_sharing_by_id db sid with
    | none =>
      simp only [delete_sharing, hg] at hs
      exact hs
    | some g =>
      simp only [delete_sharing, hg] at hs
      exact List.mem_of_mem_eraseP hs
  · intro r hr s hs
    unfold create_sharing at hr
    repeat' split at hr
    all_goals cases hr
    all_goals
      rcases List.mem_append.mp hs with hmem | hone
      · exact Or.inl hmem
      · exact Or.inr (List.mem_singleton.mp hone)
  · intro hu r hr s hs hact
    cases hg : get_sharing_by_id db sid with
    | none =>
      simp only [update_sharing, hg] at hr
      cases hr
    | some g =>
      simp only [update_sharing, hg, Option.some_inj] at hr
      subst hr
      rcases mem_updateFirst sid _ db.sharing s hs with hmem | ⟨t, ht, heq⟩
      · exact ⟨s, hmem, rfl, hact⟩
      · subst heq
        exact ⟨t, ht, (applySharingUpdate_id u t).symm,
          applySharingUpdate_active u t hu hact⟩

/-- Store witnessing the amended C7: an active row 5, updated without
touching is_active. -/
def exdb_c7w : DB :=
  { users := [], folders := [],
    maps := [{ map_id := 1, title := "m", map_type := MapType.osm, is_public := false }],
    folder_maps := [], map_access := [], collections := [], collection_access := [],
    markers := [], markers_collections := [], articles := [],
    sharing := [{ sharing_id := 5, resource_id := 1, resource_type := ResourceType.map,
                  user_id := some 2, access_level := Permission.view, is_public := false,
                  is_active := true, is_embed := false, slug := none }] }

theorem claim_C7_witness :
    (({ access_level := some Permission.edit, is_active := none, is_public := none,
        slug := none } : SharingUpdate).is_active ≠ some true) ∧
    (∀ r, update_sharing exdb_c7w 5
        { access_level := some Permission.edit, is_active := none, is_public := none,
          slug := none } = some r →
      ∀ s ∈ r.fst.sharing, s.is_active = true →
        ∃ t ∈ exdb_c7w.sharing, t.sharing_id = s.sharing_id ∧ t.is_active = true) :=
  ⟨by decide,
   (claim_C7_theorem exdb_c7w 5
      { access_level := some Permission.edit, is_active := none, is_public := none,
        slug := none }
      { resource_id := 1, resource_type := ResourceType.map, user_id := none,
        user_email := none, access_level := Permission.view, is_public := false,
        is_active := true, is_embed := false, slug := none, generate_slug := false }
      6 none).2.2.2 (by decide)⟩

/-! ## Embed rendering: routers/sharing.get_embed_data -/

/-- crud.get_active_sharings_by_resource. -/
def get_active_sharings_by_resource (db : DB) (rid : Nat) (rt : ResourceType) :
    List Sharing :=
  db.sharing.filter (fun s =>
    s.resource_id == rid && s.resource_type == rt && s.is_active)

/-- The two rejection modes of the embed-data endpoint: 403 when no
qualifying sharing row exists, 404 when the resource row is missing. -/
inductive EmbedErr where
  | forbidden
  | notFound
deriving DecidableEq, Repr

/-- crud.get_articles_by_marker. -/
def get_articles_by_marker (db : DB) (mid : Nat) : List Article :=
  db.articles.filter (fun a => a.marker_id == mid)

/-- A marker as serialized by get_embed_data. -/
structure EmbedMarker where
  marker_id : Nat
  latitude : Int
  longitude : Int
  title : String
  description : String
  color : String
  content : Option String
deriving DecidableEq, Repr

/-- The markers of a collection via the markers_collections join. -/
def markersOfCollection (db : DB) (cid : Nat) : List Marker :=
  (db.markers_collections.filter (fun mc => mc.collection_id == cid)).filterMap
    (fun mc => db.markers.find? (fun m => m.marker_id == mc.marker_id))

/-- One serialized marker: empty titles and colors fall back to the
defaults of the Python `or` idiom; the first article's markdown body is
attached when nonempty. -/
def embedMarker (db : DB) (c : Collection) (m : Marker) : EmbedMarker :=
  { marker_id := m.marker_id, latitude := m.latitude, longitude := m.longitude,
    title := if m.title == "" then "Метка без названия" else m.title,
    description := m.description,
    color := match c.collection_color with
      | none => "#4a90e2"
      | some col => if col == "" then "#4a90e2" else col,
    content := match (get_articles_by_marker db m.marker_id).head? with
      | none => none
      | some a => if a.markdown_content == "" then none else some a.markdown_content }

/-- The payload of the embed-data endpoint (the map background reference
and per-collection metadata are plain field copies and are summarized by
the title and marker list). -/
structure EmbedData where
  title : String
  markers : List EmbedMarker
deriving DecidableEq, Repr

/-- routers/sharing.get_embed_data (sharing.py lines 973-1168), the
unauthenticated embed-data read: it takes no principal at all, and is gated
on the active sharing rows of the resource having one with `is_public and
is_embed` — both flags, not either.  Past the gate, the resource row must
exist; its title and the markers of its collection(s) are returned. -/
def get_embed_data (db : DB) (rt : ResourceType) (rid : Nat) :
    Except EmbedErr EmbedData :=
  if !((get_active_sharings_by_resource db rid rt).any (fun s =>
      s.is_public && s.is_embed)) then
    Except.error EmbedErr.forbidden
  else
    match rt with
    | ResourceType.map =>
      match db.maps.find? (fun m => m.map_id == rid) with
      | none => Except.error EmbedErr.notFound
      | some m =>
        Except.ok
          { title := m.title,
            markers := (db.collections.filter (fun c => c.map_id == rid)).flatMap
              (fun c => (markersOfCollection db c.collection_id).map (embedMarker db c)) }
    | ResourceType.collection =>
      match db.collections.find? (fun c => c.collection_id == rid) with
      | none => Except.error EmbedErr.notFound
      | some c =>
        Except.ok
          { title := c.title,
            markers := (markersOfCollection db c.collection_id).map (embedMarker db c) }

/-- Store refuting C8 as stated: map 1 has an active sharing row with
is_public true but is_embed false. -/
def exdb_c8 : DB :=
  { users := [], folders := [],
    maps := [{ map_id := 1, title := "m", map_type := MapType.osm, is_public := true }],
    folder_maps := [], map_access := [], collections := [], collection_access := [],
    markers := [], markers_collections := [], articles := [],
    sharing := [{ sharing_id := 9, resource_id := 1, resource_type := ResourceType.map,
                  user_id := none, access_level := Permission.view, is_public := true,
                  is_active := true, is_embed := false, slug := some "s" }] }

/-- C8 counterexample: an active sharing row with is_public true (so
is_public-or-is_embed holds) exists for map 1, yet the embed-data read is
rejected with 403 — the gate demands is_public AND is_embed. -/
theorem claim_C8_counterexample :
    (∃ s ∈ exdb_c8.sharing, s.resource_id = 1 ∧ s.resource_type = ResourceType.map ∧
      s.is_active = true ∧ (s.is_public = true ∨ s.is_embed = true)) ∧
    get_embed_data exdb_c8 ResourceType.map 1 = Except.error EmbedErr.forbidden := by
  constructor
  · decide
  · rfl

/-- C8 amended: the unauthenticated embed-data read (no principal is
consulted anywhere) succeeds iff some active sharing row for the resource
has both is_public and is_embed true, and the resource row itself exists;
with no such row it is rejected. -/
theorem claim_C8_theorem (db : DB) (rt : ResourceType) (rid : Nat) :
    (∃ d, get_embed_data db rt rid = Except.ok d) ↔
      ((∃ s ∈ db.sharing, s.resource_id = rid ∧ s.resource_type = rt ∧
          s.is_active = true ∧ s.is_public = true ∧ s.is_embed = true) ∧
       (match rt with
        | ResourceType.map => ∃ m ∈ db.maps, m.map_id = rid
        | ResourceType.collection => ∃ c ∈ db.collections, c.collection_id = rid)) := by
  have hgate : ((get_active_sharings_by_resource db rid rt).any (fun s =>
      s.is_public && s.is_embed) = true) ↔
      (∃ s ∈ db.sharing, s.resource_id = rid ∧ s.resource_type = rt ∧
        s.is_active = true ∧ s.is_public = true ∧ s.is_embed = true) := by
    unfold get_active_sharings_by_resource
    rw [List.any_eq_true]
    constructor
    · rintro ⟨s, hmem, hp⟩
      rw [List.mem_filter] at hmem
      obtain ⟨hmem, hfilter⟩ := hmem
      simp only [Bool.and_eq_true, beq_iff_eq] at hfilter hp
      exact ⟨s, hmem, hfilter.1.1, hfilter.1.2, hfilter.2, hp.1, hp.2⟩
    · rintro ⟨s, hmem, h1, h2, h3, h4, h5⟩
      refine ⟨s, List.mem_filter.mpr ⟨hmem, by simp [h1, h2, h3]⟩, by simp [h4, h5]⟩
  unfold get_embed_data
  cases hb : (get_active_sharings_by_resource db rid rt).any (fun s =>
      s.is_public && s.is_embed) with
  | false =>
    simp only [hb, Bool.not_false, if_true]
    constructor
    · rintro ⟨d, hd⟩
      exact absurd hd (by simp)
    · rintro ⟨hex, _⟩
      rw [← hgate] at hex
      rw [hb] at hex
      exact absurd hex (by simp)
  | true =>
    simp only [hb, Bool.not_true, Bool.false_eq_true, if_false]
    cases rt with
    | map =>
      cases hm : db.maps.find? (fun m => m.map_id == rid) with
      | none =>
        rw [List.find?_eq_none] at hm
        constructor
        · rintro ⟨d, hd⟩
          exact absurd hd (by simp)
        · rintro ⟨_, m, hmem, hmid⟩
          exact absurd (by simp [hmid] : (fun m : Map => m.map_id == rid) m = true) (hm m hmem)
      | some m =>
        refine iff_of_true ⟨_, rfl⟩ ⟨hgate.mp hb, m, List.mem_of_find?_eq_some hm, ?_⟩
        have := List.find?_some hm
        rwa [beq_iff_eq] at this
    | collection =>
      cases hc : db.collections.find? (fun c => c.collection_id == rid) with
      | none =>
        rw [List.find?_eq_none] at hc
        constructor
        · rintro ⟨d, hd⟩
          exact absurd hd (by simp)
        · rintro ⟨_, c, hmem, hcid⟩
          exact absurd (by simp [hcid] : (fun c : Collection => c.collection_id == rid) c = true)
            (hc c hmem)
      | some c =>
        refine iff_of_true ⟨_, rfl⟩ ⟨hgate.mp hb, c, List.mem_of_find?_eq_some hc, ?_⟩
        have := List.find?_some hc
        rwa [beq_iff_eq] at this

end Topotik
